import Mathlib

/-!
The petgerms controller: probe reader, LCD nibble protocol and per-probe PID registry.

A shallow embedding of `main.go`.

Conventions of the embedding

* A Go `string` or `[]byte` is a list of bytes, each byte a natural number
  (`GoString`).  `len` is the number of bytes, as in Go.
* A Go `byte` is a natural number below 256; a left shift is reduced modulo 256.
* A `float64` is an exact rational number (finite values only, no rounding),
  except where a float64 is converted to an integer: the duration fields of the
  render case are computed with the float64 rounding `float64`.
* A run-time panic is the `Except.error` result of a function.
* Values sent on the channel `responses` are the list a function returns.
* The bus and the sleeps of the display driver are a trace of `BusEvent`s.
* Clock reads (`time.Now`, `time.Since`) are inputs, in nanoseconds.
-/

namespace Petgerms

/-! ## Go strings -/

/-- A Go string: a sequence of bytes. -/
abbrev GoString := List Nat

/-- The bytes of an ASCII literal. -/
def ascii (s : String) : GoString := s.data.map Char.toNat

/-- Run-time panics of the Go runtime and of the program. -/
inductive GoPanic where
  | indexOutOfRange
  | sliceBoundsOutOfRange
  | message (msg : GoString)
  deriving DecidableEq, Repr

/-- Go `strings.Split(s, sep)` for a one-byte separator: a string with `n`
separators is cut into `n + 1` pieces (the empty string gives one empty piece). -/
def Split (sep : Nat) : GoString → List GoString
  | [] => [[]]
  | c :: cs =>
    if c = sep then [] :: Split sep cs
    else
      match Split sep cs with
      | [] => [[c]]
      | piece :: pieces => (c :: piece) :: pieces

/-- Go `strings.HasSuffix(s, suffix)`:
`len(s) >= len(suffix) && s[len(s)-len(suffix):] == suffix`. -/
def HasSuffix (s suffix : GoString) : Bool :=
  decide (suffix.length ≤ s.length) && decide (s.drop (s.length - suffix.length) = suffix)

/-- Go index expression `xs[i]`: panics when `i` is out of range. -/
def index {α : Type} (xs : List α) (i : Nat) : Except GoPanic α :=
  match xs[i]? with
  | some x => .ok x
  | none => .error .indexOutOfRange

/-- Go slice expression `s[lo:]` on a string: panics unless `0 <= lo <= len(s)`. -/
def sliceFrom (s : GoString) (lo : Int) : Except GoPanic GoString :=
  if lo < 0 ∨ (s.length : Int) < lo then .error .sliceBoundsOutOfRange
  else .ok (s.drop lo.toNat)

/-- The byte is an ASCII decimal digit. -/
def isDigit (c : Nat) : Bool := decide (48 ≤ c) && decide (c ≤ 57)

/-- The loop of `strconv.Atoi`: `n = n*10 + int(ch - '0')` over the digits. -/
def digitsValue (ds : GoString) : Nat :=
  ds.foldl (fun n ch => n * 10 + (ch - 48)) 0

/-- Go `strconv.Atoi(s)` on a 64-bit platform: an optional sign `+` or `-`,
then one or more decimal digits; `none` is a syntax or range error. -/
def Atoi (s : GoString) : Option Int :=
  match s with
  | [] => none
  | c :: rest =>
    let neg : Bool := decide (c = 45)
    let ds : GoString := if c = 45 ∨ c = 43 then rest else s
    if ds = [] then none
    else if ds.all isDigit then
      let n := digitsValue ds
      if neg then (if n ≤ 2 ^ 63 then some (-(n : Int)) else none)
      else (if n < 2 ^ 63 then some (n : Int) else none)
    else none

/-! ## The probe reader `getTemp` -/

/-- A reading sent on the channel. -/
structure tempReading where
  busid : GoString
  temp : ℚ
  deriving DecidableEq, Repr

/-- The marker `"YES"`. -/
def YES : GoString := [89, 69, 83]

/-- The function `getTemp(path, responses)`.  `readFile` is `ioutil.ReadFile`
(`none` is a read error).  The result is the list of readings sent on
`responses`, or the panic that aborted the call. -/
def getTemp (readFile : GoString → Option GoString) (path : GoString) :
    Except GoPanic (List tempReading) :=
  match readFile path with
  | none => .ok []
  | some dat =>
    let lines := Split 10 dat
    if lines.length ≠ 3 then .ok []
    else
      (index lines 0).bind fun l0 =>
      if !HasSuffix l0 YES then .ok []
      else
        let p := Split 47 path
        if p.length < 6 then .ok []
        else
          (index p 5).bind fun p5 =>
          if p5.length < 5 then .ok []
          else
            let busid := p5
            (index lines 1).bind fun l1 =>
            (sliceFrom l1 ((l1.length : Int) - 5)).bind fun last5 =>
            match Atoi last5 with
            | some temp => .ok [{ busid := busid, temp := (temp : ℚ) / 1000 }]
            | none => .ok []

/-- The readings a call has sent: none when it panicked. -/
def emitted (r : Except GoPanic (List tempReading)) : List tempReading :=
  match r with
  | .ok rs => rs
  | .error _ => []

/-! ## The display driver -/

def LCD_CHR : Nat := 1
def LCD_CMD : Nat := 0
def LCD_ENTRYLEFT : Nat := 0x02
def LCD_DISPLAYON : Nat := 0x04
def LCD_CURSOROFF : Nat := 0x00
def LCD_BLINKOFF : Nat := 0x00
def LCD_2LINE : Nat := 0x08
def LCD_5x8DOTS : Nat := 0x00
def LCD_BACKLIGHT : Nat := 0x08
def LCD_ENTRYMODESET : Nat := 0x04
def LCD_CLEARDISPLAY : Nat := 0x01
def LCD_RETURNHOME : Nat := 0x02
def LCD_FUNCTIONSET : Nat := 0x20
def LCD_DISPLAYCONTROL : Nat := 0x08
def LCD_LINE_1 : Nat := 0x80
def LCD_LINE_2 : Nat := 0xC0
def LCD_LINE_3 : Nat := 0x94
def LCD_LINE_4 : Nat := 0xD4

/-- What the driver does to the outside world: `lcd.Write(bytes)` on the bus,
or `time.Sleep` for a number of microseconds. -/
inductive BusEvent where
  | write (bytes : List Nat)
  | sleep (micros : Nat)
  deriving DecidableEq, Repr

/-- The closure `send(b, mode)` of `initLCD`: the trace of its bus writes and sleeps. -/
def send (b mode : Nat) : List BusEvent :=
  let bh := b &&& 0xF0
  let bl := ((b &&& 0x0F) <<< 4) % 256
  [ .write [bh ||| LCD_BACKLIGHT ||| mode],
    .sleep 25,
    .write [bh ||| 4 ||| LCD_BACKLIGHT ||| mode],
    .sleep 50,
    .write [bl ||| LCD_BACKLIGHT ||| mode],
    .sleep 25,
    .write [bl ||| 4 ||| LCD_BACKLIGHT ||| mode],
    .sleep 50,
    .write [LCD_BACKLIGHT ||| mode],
    .sleep 25 ]

/-- The function `initLCD(devpath)`.  `i2cOpen` is `i2c.Open` on the device path
and the bus address (`Except.error` carries the text of its error).  The result
is the trace of the initialisation, or the panic raised when the open failed. -/
def initLCD (i2cOpen : GoString → Nat → Except GoString Unit) (devpath : GoString) :
    Except GoPanic (List BusEvent) :=
  match i2cOpen devpath 0x27 with
  | .error err => .error (.message (ascii "error opening i2c device: " ++ err))
  | .ok _ =>
    .ok (send 0x33 LCD_CMD
      ++ send 0x32 LCD_CMD
      ++ send (LCD_ENTRYMODESET ||| LCD_ENTRYLEFT) LCD_CMD
      ++ send (LCD_DISPLAYCONTROL ||| LCD_DISPLAYON ||| LCD_CURSOROFF ||| LCD_BLINKOFF) LCD_CMD
      ++ send (LCD_FUNCTIONSET ||| LCD_2LINE ||| LCD_5x8DOTS) LCD_CMD
      ++ send LCD_CLEARDISPLAY LCD_CMD
      ++ send LCD_RETURNHOME LCD_CMD)

/-- The bytes written on the bus by a trace, one entry per `lcd.Write`. -/
def busWrites : List BusEvent → List (List Nat)
  | [] => []
  | .write bytes :: rest => bytes :: busWrites rest
  | .sleep _ :: rest => busWrites rest

/-- The trace of a sequence of `send` calls, given as (byte, mode) pairs. -/
def sendAll : List (Nat × Nat) → List BusEvent
  | [] => []
  | (b, mode) :: rest => send b mode ++ sendAll rest

/-- All the bytes a trace writes on the bus, in order. -/
def busBytes (t : List BusEvent) : List Nat :=
  (busWrites t).flatten

/-- A trace read as (bus write, settle delay) pairs: each write paired with the
sleep that immediately follows it; `none` when some write is not immediately
followed by a sleep, or a sleep does not follow a write. -/
def writeDelays : List BusEvent → Option (List (List Nat × Nat))
  | [] => some []
  | .write bytes :: .sleep micros :: rest =>
    (writeDelays rest).map fun pairs => (bytes, micros) :: pairs
  | _ => none

/-! ## The PID controller -/

/-- Modelled from the spec: the PID controller is the external package
`github.com/felixge/pidctrl`, which is not under `src/`.  The state follows
section 3 of the spec: the gains, the setpoint, the accumulated integral term,
the previous process value and the time of the previous step (for the
derivative estimate) and the output clamp bounds (`none` is an infinite bound,
the state of a controller whose limits were never set). -/
structure PIDController where
  p : ℚ
  i : ℚ
  d : ℚ
  setpoint : ℚ
  prevValue : ℚ
  integral : ℚ
  lastUpdate : Option Int
  outMin : Option ℚ
  outMax : Option ℚ
  deriving DecidableEq, Repr

/-- Modelled from the spec: `pidctrl.NewPIDController(p, i, d)`, a controller
with the given gains, nothing accumulated and unbounded output. -/
def NewPIDController (p i d : ℚ) : PIDController :=
  { p := p, i := i, d := d, setpoint := 0, prevValue := 0, integral := 0,
    lastUpdate := none, outMin := none, outMax := none }

/-- Modelled from the spec: the clamp `if x > outMax then outMax else if
x < outMin then outMin else x` of the controller, on bounds that may be infinite. -/
def clampLimits (outMin outMax : Option ℚ) (x : ℚ) : ℚ :=
  match outMax, outMin with
  | some hi, some lo => if x > hi then hi else if x < lo then lo else x
  | some hi, none => if x > hi then hi else x
  | none, some lo => if x < lo then lo else x
  | none, none => x

/-- Modelled from the spec: `SetOutputLimits(min, max)`, which sets the output
clamp bounds of section 3 and clamps the integral term to them.  The package
panics when `min > max`; the caller supplies `min <= max`. -/
def PIDController.SetOutputLimits (c : PIDController) (min max : ℚ) (_h : min ≤ max) :
    PIDController :=
  { c with outMin := some min, outMax := some max,
           integral := clampLimits (some min) (some max) c.integral }

/-- Modelled from the spec: `Set(setpoint)`, which changes the setpoint only. -/
def PIDController.Set (c : PIDController) (setpoint : ℚ) : PIDController :=
  { c with setpoint := setpoint }

/-- Go `time.Duration.Seconds()`: whole seconds plus the rest over `1e9`, as the
exact rational value on which the PID controller is modelled. -/
def Seconds (duration : Int) : ℚ :=
  ((Int.tdiv duration 1000000000 : Int) : ℚ) + ((Int.tmod duration 1000000000 : Int) : ℚ) / 1000000000

/-- Modelled from the spec: the PID step `UpdateDuration(value, duration)` of
section 4.3: the error is `setpoint - value`; the integral term accumulates
`err * dt * i` and is clamped to the output bounds; the derivative is estimated
from the previous process value when `dt > 0`; the output
`p*err + integral + d*derivative` is clamped to the output bounds.  Returns the
output and the controller after the step. -/
def PIDController.UpdateDuration (c : PIDController) (value : ℚ) (duration : Int) :
    ℚ × PIDController :=
  let dt := Seconds duration
  let err := c.setpoint - value
  let integral := clampLimits c.outMin c.outMax (c.integral + err * dt * c.i)
  let d : ℚ := if dt > 0 then -((value - c.prevValue) / dt) else 0
  let output := clampLimits c.outMin c.outMax (c.p * err + integral + c.d * d)
  (output, { c with integral := integral, prevValue := value })

/-- Modelled from the spec: `Update(value)`, the PID step "using elapsed
wall-clock time since the previous step"; the first step uses a zero elapsed
time.  `clockSince` is the clock read by `time.Since`, `clockNow` the one
stored as the time of this step. -/
def PIDController.Update (c : PIDController) (value : ℚ) (clockSince clockNow : Int) :
    ℚ × PIDController :=
  let duration : Int :=
    match c.lastUpdate with
    | none => 0
    | some last => clockSince - last
  PIDController.UpdateDuration { c with lastUpdate := some clockNow } value duration

/-! ## The registry of batches and the reading case of the control loop -/

/-- The struct `Batch`. -/
structure Batch where
  busid : GoString
  temp : ℚ
  target : ℚ
  pidset : ℚ
  start : Int
  pc : PIDController
  deriving DecidableEq, Repr

/-- The map `batchMap` from probe id to batch, as an association list with at
most one entry per key. -/
abbrev BatchMap := List (GoString × Batch)

/-- Map read `batchMap[k]`. -/
def lookup : BatchMap → GoString → Option Batch
  | [], _ => none
  | (k1, b) :: rest, k => if k1 = k then some b else lookup rest k

/-- Map write `batchMap[k] = b`: replaces the entry of `k` or adds one. -/
def store : BatchMap → GoString → Batch → BatchMap
  | [], k, b => [(k, b)]
  | (k1, b1) :: rest, k, b => if k1 = k then (k, b) :: rest else (k1, b1) :: store rest k b

/-- One receive on the channel `temps`, with the clock values the reading case
reads: `clockStart` is `time.Now()` of the batch creation (read only for a new
probe), `clockSince` and `clockNow` are the two clock reads of `pc.Update`. -/
structure ReadingEvent where
  tr : tempReading
  clockStart : Int
  clockSince : Int
  clockNow : Int
  deriving DecidableEq, Repr

/-- The case `tr := <-temps` of the select loop of `main`. -/
def readingCase (batchMap : BatchMap) (ev : ReadingEvent) : BatchMap :=
  let tr := ev.tr
  let batchMap1 : BatchMap :=
    match lookup batchMap tr.busid with
    | some _ => batchMap
    | none =>
      let b0 : Batch :=
        { busid := tr.busid, temp := tr.temp, target := 28, pidset := 0,
          start := ev.clockStart, pc := NewPIDController 1 3 (1 / 5) }
      let b1 : Batch := { b0 with pc := b0.pc.SetOutputLimits 0 100 (by norm_num) }
      let b2 : Batch := { b1 with pc := b1.pc.Set b1.target }
      store batchMap tr.busid b2
  match lookup batchMap1 tr.busid with
  | none => batchMap1
  | some b =>
    let b3 : Batch := { b with temp := tr.temp }
    let r := b3.pc.Update tr.temp ev.clockSince ev.clockNow
    store batchMap1 tr.busid { b3 with pidset := r.1, pc := r.2 }

/-- The control loop fed a sequence of readings, one `readingCase` per reading. -/
def run (batchMap : BatchMap) (evs : List ReadingEvent) : BatchMap :=
  evs.foldl readingCase batchMap

/-- The batch the reading case creates for an unknown probe: the struct literal,
then `SetOutputLimits(0.0, 100.0)` and `Set(target)` on its controller. -/
def createBatch (ev : ReadingEvent) : Batch :=
  let b0 : Batch :=
    { busid := ev.tr.busid, temp := ev.tr.temp, target := 28, pidset := 0,
      start := ev.clockStart, pc := NewPIDController 1 3 (1 / 5) }
  let b1 : Batch := { b0 with pc := b0.pc.SetOutputLimits 0 100 (by norm_num) }
  { b1 with pc := b1.pc.Set b1.target }

/-- The two assignments the reading case makes to the batch of the probe:
`temp = tr.temp` and `pidset = pc.Update(tr.temp)`. -/
def updateBatch (b : Batch) (ev : ReadingEvent) : Batch :=
  let b3 : Batch := { b with temp := ev.tr.temp }
  let r := b3.pc.Update ev.tr.temp ev.clockSince ev.clockNow
  { b3 with pidset := r.1, pc := r.2 }

/-- The first reading for probe `k` in a sequence of readings. -/
def firstReading (k : GoString) (evs : List ReadingEvent) : Option ReadingEvent :=
  evs.find? fun e => decide (e.tr.busid = k)

/-- The last reading for probe `k` in a sequence of readings. -/
def lastReading (k : GoString) (evs : List ReadingEvent) : Option ReadingEvent :=
  firstReading k evs.reverse

/-- The probe ids known to the registry, in the order of the entries. -/
def knownProbes (m : BatchMap) : List GoString :=
  m.map Prod.fst

/-! ## The render case of the control loop -/

/-- Rounding of a non-negative number to the nearest natural number, a tie
going to the even one: the rounding of float64 arithmetic and of
`strconv.FormatFloat`. -/
def roundHalfEven (x : ℚ) : Nat :=
  let f : Nat := (Int.floor x).toNat
  let r : ℚ := x - f
  if r < 1 / 2 then f
  else if 1 / 2 < r then f + 1
  else if f % 2 = 0 then f else f + 1

/-- The float64 nearest to a rational number (IEEE 754 binary64, round to
nearest, ties to even): for `2 ^ e <= |x| < 2 ^ (e + 1)` the unit in the last
place is `2 ^ (e - 52)`, with `e` not below -1022 (the subnormal range), and the
result is the nearest multiple of that unit.  It is the result of a float64
operation whose exact result is `x`, and of the conversion `float64(n)` of an
integer.  Overflow to infinity (from `2 ^ 1024` on) is outside the model. -/
def float64 (x : ℚ) : ℚ :=
  if x = 0 then 0
  else
    let e : Int := max (Int.log 2 |x|) (-1022)
    let ulp : ℚ := (2 : ℚ) ^ (e - 52)
    let n := roundHalfEven (|x| / ulp)
    if x < 0 then -((n : ℚ) * ulp) else (n : ℚ) * ulp

/-- The body shared by Go `time.Duration.Hours()`, `Minutes()` and `Seconds()`,
computed in float64 as the code does: `float64(whole) + float64(rest)/unit`,
for `whole := d / unit`, `rest := d % unit` and `unit` the nanoseconds of the
unit (an integer that float64 holds exactly). -/
def unitsFloat64 (unit duration : Int) : ℚ :=
  float64 (float64 ((Int.tdiv duration unit : Int) : ℚ)
    + float64 (float64 ((Int.tmod duration unit : Int) : ℚ) / (unit : ℚ)))

/-- Go `time.Duration.Hours()` in float64:
`float64(d / Hour) + float64(d % Hour)/(60*60*1e9)`. -/
def HoursFloat64 (duration : Int) : ℚ :=
  unitsFloat64 3600000000000 duration

/-- Go `time.Duration.Minutes()` in float64:
`float64(d / Minute) + float64(d % Minute)/(60*1e9)`. -/
def MinutesFloat64 (duration : Int) : ℚ :=
  unitsFloat64 60000000000 duration

/-- Go `time.Duration.Seconds()` in float64:
`float64(d / Second) + float64(d % Second)/1e9`. -/
def SecondsFloat64 (duration : Int) : ℚ :=
  unitsFloat64 1000000000 duration

/-- Go conversion `int(x)` of a float64: the fraction is discarded (truncation
toward zero). -/
def truncInt (x : ℚ) : Int :=
  if 0 ≤ x then Int.floor x else Int.ceil x

/-- The decimal digits of a natural number, as ASCII bytes. -/
def decimal (n : Nat) : GoString :=
  (Nat.toDigits 10 n).map Char.toNat

/-- The left padding of `fmt`: spaces up to the width `wid` (a minimum width,
nothing is cut). -/
def padLeft (wid : Nat) (s : GoString) : GoString :=
  List.replicate (wid - s.length) 32 ++ s

/-- Go `fmt` verb `% <wid>d` (space flag): a minus sign or a space in the sign
position, the decimal digits, left padding with spaces up to the width. -/
def fmtSpaceInt (wid : Nat) (v : Int) : GoString :=
  padLeft wid ((if v < 0 then [45] else [32]) ++ decimal v.natAbs)

/-- Go `fmt` verb `%0<wid>d` (zero flag): the decimal digits with leading zeros
up to the width, one less when a minus sign is written. -/
def fmtZeroInt (wid : Nat) (v : Int) : GoString :=
  let prec := if v < 0 then wid - 1 else wid
  let digits := decimal v.natAbs
  padLeft wid ((if v < 0 then [45] else []) ++ List.replicate (prec - digits.length) 48 ++ digits)

/-- Go `fmt` verb `% <wid>.2f` (space flag, precision 2): a minus sign or a
space in the sign position, the integer digits, a point and two decimals, left
padding with spaces up to the width. -/
def fmtSpaceFloat2 (wid : Nat) (x : ℚ) : GoString :=
  let n := roundHalfEven (|x| * 100)
  padLeft wid ((if x < 0 then [45] else [32])
    ++ decimal (n / 100) ++ [46, 48 + n % 100 / 10, 48 + n % 10])

/-- The four integers of the duration: `int(since.Hours())/24`,
`int(since.Hours())%24`, `int(since.Minutes())%60`, `int(since.Seconds())%60`,
each `int(...)` taken on the float64 the code computes. -/
def durationFields (since : Int) : Int × Int × Int × Int :=
  (Int.tdiv (truncInt (HoursFloat64 since)) 24, Int.tmod (truncInt (HoursFloat64 since)) 24,
   Int.tmod (truncInt (MinutesFloat64 since)) 60,
   Int.tmod (truncInt (SecondsFloat64 since)) 60)

/-- The string `duration`: `fmt.Sprintf("% 2d:%02d:%02d:%02d", ...)` of the four
fields. -/
def durationText (since : Int) : GoString :=
  let f := durationFields since
  fmtSpaceInt 2 f.1 ++ [58] ++ fmtZeroInt 2 f.2.1 ++ [58] ++ fmtZeroInt 2 f.2.2.1
    ++ [58] ++ fmtZeroInt 2 f.2.2.2

/-- The value `ftemp` of the render case. -/
def ftemp (batch : Batch) : ℚ :=
  batch.temp * 9 / 5 + 32

/-- The string `msg` of the render case, `fmt.Sprintf("% 3.2f\xdfF%12s", ftemp,
duration)`; `clock` is the clock read by `time.Since(batch.start)`. -/
def message (batch : Batch) (clock : Int) : GoString :=
  let since := clock - batch.start
  fmtSpaceFloat2 3 (ftemp batch) ++ [0xDF] ++ [70] ++ padLeft 12 (durationText since)

/-- The loop `for _, c := range []byte(msg)` of the render case: one
`sendLCD(byte(c), LCD_CHR)` per byte. -/
def sendText : GoString → List BusEvent
  | [] => []
  | c :: rest => send c LCD_CHR ++ sendText rest

/-- The body of the render loop for one batch: the trace on the bus. -/
def renderBatch (batch : Batch) (clock : Int) : List BusEvent :=
  send LCD_LINE_1 LCD_CMD ++ sendText (message batch clock)

/-- The render loop over the batches from the `i`-th clock read on. -/
def renderFrom (clock : Nat → Int) : Nat → BatchMap → List BusEvent
  | _, [] => []
  | i, (_, batch) :: rest => renderBatch batch (clock i) ++ renderFrom clock (i + 1) rest

/-- The case `<-updateLCD` of the select loop of `main`.  The batches are
visited in the order of the entries, one of the orders `range` may take;
`clock i` is the clock read in the `i`-th iteration. -/
def renderCase (batchMap : BatchMap) (clock : Nat → Int) : List BusEvent :=
  renderFrom clock 0 batchMap

/-! ## Facts about the string primitives -/

theorem HasSuffix_iff (s suffix : GoString) :
    HasSuffix s suffix = true ↔ ∃ pre, s = pre ++ suffix := by
  constructor
  · intro h
    simp only [HasSuffix, Bool.and_eq_true, decide_eq_true_eq] at h
    refine ⟨s.take (s.length - suffix.length), ?_⟩
    conv_lhs => rw [← List.take_append_drop (s.length - suffix.length) s]
    rw [h.2]
  · rintro ⟨pre, rfl⟩
    simp [HasSuffix]

theorem index_eq_ok {α : Type} (xs : List α) (i : Nat) (x : α) (h : xs[i]? = some x) :
    index xs i = .ok x := by
  simp [index, h]

theorem sliceFrom_last (pre suf : GoString) (n : Nat) (h : suf.length = n) :
    sliceFrom (pre ++ suf) (((pre ++ suf).length : Int) - n) = .ok suf := by
  have h1 : (((pre ++ suf).length : Int) - n) = (pre.length : Int) := by
    simp [List.length_append, h]
  rw [h1]
  simp [sliceFrom]

theorem sliceFrom_short (s : GoString) (n : Nat) (h : s.length < n) :
    sliceFrom s ((s.length : Int) - n) = .error .sliceBoundsOutOfRange := by
  have h1 : ((s.length : Int) - n) < 0 := by omega
  simp [sliceFrom, h1]

theorem Atoi_five_digits (d4 d3 d2 d1 d0 : Nat)
    (h4 : d4 ≤ 9) (h3 : d3 ≤ 9) (h2 : d2 ≤ 9) (h1 : d1 ≤ 9) (h0 : d0 ≤ 9) :
    Atoi [48 + d4, 48 + d3, 48 + d2, 48 + d1, 48 + d0]
      = some ((d4 * 10000 + d3 * 1000 + d2 * 100 + d1 * 10 + d0 : Nat) : Int) := by
  have e45 : ¬ (48 + d4 = 45) := by omega
  have e43 : ¬ (48 + d4 = 43) := by omega
  have hlt : ((((d4 * 10 + d3) * 10 + d2) * 10 + d1) * 10 + d0) < 2 ^ 63 := by
    norm_num
    omega
  have hval : ((((d4 * 10 + d3) * 10 + d2) * 10 + d1) * 10 + d0)
      = d4 * 10000 + d3 * 1000 + d2 * 100 + d1 * 10 + d0 := by ring
  simp only [Atoi, e45, e43, or_self, if_false, decide_False, isDigit, digitsValue,
    List.all_cons, List.all_nil, List.foldl_cons, List.foldl_nil, Nat.add_sub_cancel_left,
    Nat.zero_mul, Nat.zero_add]
  simp only [hval] at hlt ⊢
  simp
  omega

theorem length_eq_three {α : Type} (xs : List α) (h : xs.length = 3) :
    ∃ a b c, xs = [a, b, c] := by
  match xs, h with
  | [a, b, c], _ => exact ⟨a, b, c, rfl⟩

theorem getElem?_five_of_length {α : Type} (xs : List α) (h : ¬ xs.length < 6) :
    ∃ x, xs[5]? = some x := by
  have h5 : 5 < xs.length := by omega
  exact ⟨xs[5], List.getElem?_eq_getElem h5⟩

/-- Once the three-line, marker and path checks have passed, `getTemp` is the
slice of the second line followed by `Atoi`. -/
theorem getTemp_checks_passed (readFile : GoString → Option GoString)
    (path dat seg l0 l1 l2 : GoString)
    (hread : readFile path = some dat)
    (hlines : Split 10 dat = [l0, l1, l2])
    (hyes : HasSuffix l0 YES = true)
    (hseg : (Split 47 path)[5]? = some seg) (hseglen : ¬ seg.length < 5) :
    getTemp readFile path
      = (sliceFrom l1 ((l1.length : Int) - 5)).bind fun last5 =>
          match Atoi last5 with
          | some temp => .ok [{ busid := seg, temp := (temp : ℚ) / 1000 }]
          | none => .ok [] := by
  have hplen : ¬ (Split 47 path).length < 6 := by
    obtain ⟨hlt, _⟩ := List.getElem?_eq_some.1 hseg
    omega
  have hi0 : index [l0, l1, l2] 0 = .ok l0 := rfl
  have hi1 : index [l0, l1, l2] 1 = .ok l1 := rfl
  have hi5 : index (Split 47 path) 5 = .ok seg := index_eq_ok _ _ _ hseg
  simp only [getTemp, hread, hlines, List.length_cons, List.length_nil, hi0, hi1, hi5,
    Except.bind, hyes, hplen, hseglen]
  simp

/-! ## The probe reader -/

/-- C1: for a path whose sixth slash-delimited segment `seg` exists and has at
least 5 bytes, and a content that splits on newline into exactly 3 pieces, the
first ending in `YES` and the second ending in five decimal digits
`d4 d3 d2 d1 d0`, `getTemp` returns normally having sent exactly one reading,
with probe id `seg` and temperature `D / 1000` for `D` the number the five
digits spell. -/
theorem getTemp_valid_sample (readFile : GoString → Option GoString)
    (path dat seg l0 l1 l2 pre0 pre1 : GoString) (d4 d3 d2 d1 d0 : Nat)
    (hread : readFile path = some dat)
    (hseg : (Split 47 path)[5]? = some seg) (hseglen : 5 ≤ seg.length)
    (hlines : Split 10 dat = [l0, l1, l2])
    (hyes : l0 = pre0 ++ YES)
    (hl1 : l1 = pre1 ++ [48 + d4, 48 + d3, 48 + d2, 48 + d1, 48 + d0])
    (h4 : d4 ≤ 9) (h3 : d3 ≤ 9) (h2 : d2 ≤ 9) (h1 : d1 ≤ 9) (h0 : d0 ≤ 9) :
    getTemp readFile path
      = .ok [{ busid := seg,
               temp := ((d4 * 10000 + d3 * 1000 + d2 * 100 + d1 * 10 + d0 : Nat) : ℚ) / 1000 }] := by
  have hsuf : HasSuffix l0 YES = true := (HasSuffix_iff l0 YES).2 ⟨pre0, hyes⟩
  have hslice : sliceFrom l1 ((l1.length : Int) - 5)
      = .ok [48 + d4, 48 + d3, 48 + d2, 48 + d1, 48 + d0] := by
    rw [hl1]
    exact sliceFrom_last pre1 _ 5 rfl
  rw [getTemp_checks_passed readFile path dat seg l0 l1 l2 hread hlines hsuf hseg (by omega),
    hslice]
  simp only [Except.bind, Atoi_five_digits d4 d3 d2 d1 d0 h4 h3 h2 h1 h0]
  simp

theorem getTemp_valid_sample_witness :
    getTemp
        (fun _ => some (ascii "72 01 4b 46 7f ff 0e 10 57 : crc=57 YES\n72 01 4b 46 7f ff 0e 10 57 t=23125\n"))
        (ascii "/sys/bus/w1/devices/28-000005e2fdc3/w1_slave")
      = .ok [{ busid := ascii "28-000005e2fdc3",
               temp := ((2 * 10000 + 3 * 1000 + 1 * 100 + 2 * 10 + 5 : Nat) : ℚ) / 1000 }] :=
  getTemp_valid_sample
    (fun _ => some (ascii "72 01 4b 46 7f ff 0e 10 57 : crc=57 YES\n72 01 4b 46 7f ff 0e 10 57 t=23125\n"))
    (ascii "/sys/bus/w1/devices/28-000005e2fdc3/w1_slave")
    (ascii "72 01 4b 46 7f ff 0e 10 57 : crc=57 YES\n72 01 4b 46 7f ff 0e 10 57 t=23125\n")
    (ascii "28-000005e2fdc3")
    (ascii "72 01 4b 46 7f ff 0e 10 57 : crc=57 YES")
    (ascii "72 01 4b 46 7f ff 0e 10 57 t=23125")
    []
    (ascii "72 01 4b 46 7f ff 0e 10 57 : crc=57 ")
    (ascii "72 01 4b 46 7f ff 0e 10 57 t=")
    2 3 1 2 5
    rfl (by decide) (by decide) (by decide) (by decide) (by decide)
    (by decide) (by decide) (by decide) (by decide) (by decide)

/-- C2: a content that does not split on newline into exactly 3 lines, or whose
first line does not end in `YES`, or a path with fewer than 6 slash-delimited
segments, or whose sixth segment is shorter than 5 bytes, or a second line none
of whose 5-byte endings parses as an integer: in each case `getTemp` sends no
reading. -/
theorem getTemp_invalid_sample (readFile : GoString → Option GoString)
    (path dat : GoString) (hread : readFile path = some dat)
    (h : (Split 10 dat).length ≠ 3
      ∨ (∃ l0, (Split 10 dat)[0]? = some l0 ∧ ¬ ∃ pre, l0 = pre ++ YES)
      ∨ (Split 47 path).length < 6
      ∨ (∃ seg, (Split 47 path)[5]? = some seg ∧ seg.length < 5)
      ∨ (∃ l1, (Split 10 dat)[1]? = some l1 ∧
          ∀ pre last5, l1 = pre ++ last5 → last5.length = 5 → Atoi last5 = none)) :
    emitted (getTemp readFile path) = [] := by
  by_cases hlen : (Split 10 dat).length ≠ 3
  · simp [getTemp, hread, hlen, emitted]
  have hlen3 : (Split 10 dat).length = 3 := by
    by_contra hne
    exact hlen hne
  obtain ⟨l0, l1, l2, hlines⟩ := length_eq_three _ hlen3
  have hi0 : index [l0, l1, l2] 0 = .ok l0 := rfl
  by_cases hyes : HasSuffix l0 YES = true
  swap
  · simp [getTemp, hread, hlines, hi0, Except.bind, hyes, emitted]
  by_cases hplen : (Split 47 path).length < 6
  · simp [getTemp, hread, hlines, hi0, Except.bind, hyes, hplen, emitted]
  obtain ⟨seg, hseg⟩ := getElem?_five_of_length _ hplen
  have hi5 : index (Split 47 path) 5 = .ok seg := index_eq_ok _ _ _ hseg
  by_cases hseglen : seg.length < 5
  · simp [getTemp, hread, hlines, hi0, hi5, Except.bind, hyes, hplen, hseglen, emitted]
  rw [getTemp_checks_passed readFile path dat seg l0 l1 l2 hread hlines hyes hseg hseglen]
  rcases h with h | h | h | h | h
  · exact absurd h hlen
  · obtain ⟨l, hl, hno⟩ := h
    rw [hlines] at hl
    have hl0 : l = l0 := by simpa using hl.symm
    exact absurd ((HasSuffix_iff l0 YES).1 hyes) (hl0 ▸ hno)
  · exact absurd h hplen
  · obtain ⟨seg1, hseg1, hshort⟩ := h
    rw [hseg] at hseg1
    have hs : seg = seg1 := by simpa using hseg1
    exact absurd (hs ▸ hshort) hseglen
  · obtain ⟨l, hl, hno⟩ := h
    rw [hlines] at hl
    have hl1 : l = l1 := by simpa using hl.symm
    subst hl1
    by_cases hshort : l.length < 5
    · have hsl : sliceFrom l ((l.length : Int) - 5) = .error .sliceBoundsOutOfRange :=
        sliceFrom_short l 5 hshort
      rw [hsl]
      rfl
    · have hsplit : l = l.take (l.length - 5) ++ l.drop (l.length - 5) :=
        (List.take_append_drop _ _).symm
      have hdl : (l.drop (l.length - 5)).length = 5 := by
        rw [List.length_drop]
        omega
      have hsl0 := sliceFrom_last (l.take (l.length - 5)) (l.drop (l.length - 5)) 5 hdl
      rw [← hsplit] at hsl0
      have hsl : sliceFrom l ((l.length : Int) - 5) = .ok (l.drop (l.length - 5)) := hsl0
      rw [hsl]
      simp only [Except.bind, hno _ _ hsplit hdl]
      rfl

theorem getTemp_invalid_sample_witness :
    emitted (getTemp (fun _ => some (ascii "72 01 4b 46 7f ff 0e 10 57 : crc=57 NO\n"))
      (ascii "/sys/bus/w1/devices/28-000005e2fdc3/w1_slave")) = [] :=
  getTemp_invalid_sample
    (fun _ => some (ascii "72 01 4b 46 7f ff 0e 10 57 : crc=57 NO\n"))
    (ascii "/sys/bus/w1/devices/28-000005e2fdc3/w1_slave")
    (ascii "72 01 4b 46 7f ff 0e 10 57 : crc=57 NO\n")
    rfl (Or.inl (by decide))

/-- C3: on a well-formed path and a three-line content whose first line ends in
`YES` and whose second line has fewer than 5 bytes, `getTemp` does not complete
normally: the slice `lines[1][len(lines[1])-5:]` panics. -/
theorem getTemp_short_second_line_panics :
    getTemp (fun _ => some (ascii "00 00 00 00 00 00 00 00 00 : crc=00 YES\nt=85\n"))
      (ascii "/sys/bus/w1/devices/28-000005e2fdc3/w1_slave")
      = .error .sliceBoundsOutOfRange := by
  rfl

theorem low_nibble_shift (b : Nat) : ((b &&& 0x0F) <<< 4) % 256 = (b &&& 0x0F) <<< 4 := by
  have h : b &&& 0x0F ≤ 0x0F := Nat.and_le_right
  rw [Nat.shiftLeft_eq]
  apply Nat.mod_eq_of_lt
  omega

/-- The trace of `send`, with the byte expressions written out. -/
theorem send_trace (b mode : Nat) :
    send b mode
      = [ .write [(b &&& 0xF0) ||| 0x08 ||| mode], .sleep 25,
          .write [(b &&& 0xF0) ||| 0x04 ||| 0x08 ||| mode], .sleep 50,
          .write [((b &&& 0x0F) <<< 4) ||| 0x08 ||| mode], .sleep 25,
          .write [((b &&& 0x0F) <<< 4) ||| 0x04 ||| 0x08 ||| mode], .sleep 50,
          .write [0x08 ||| mode], .sleep 25 ] := by
  simp only [send, low_nibble_shift, LCD_BACKLIGHT]

set_option maxRecDepth 100000 in
theorem strobe_bits : ∀ b, b < 256 → ∀ mode, mode < 2 →
    ((b &&& 0xF0) ||| 0x08 ||| mode) &&& 0x04 = 0
      ∧ ((b &&& 0xF0) ||| 0x04 ||| 0x08 ||| mode) &&& 0x04 = 0x04
      ∧ (((b &&& 0x0F) <<< 4) ||| 0x08 ||| mode) &&& 0x04 = 0
      ∧ (((b &&& 0x0F) <<< 4) ||| 0x04 ||| 0x08 ||| mode) &&& 0x04 = 0x04
      ∧ (0x08 ||| mode) &&& 0x04 = 0 := by
  decide

/-! ## The display driver -/

set_option maxRecDepth 100000 in
/-- C4: for every byte `b` and mode 0 or 1, one `send(b, mode)` performs
exactly five one-byte bus writes, in the order high nibble, high nibble with
strobe, low nibble, low nibble with strobe, idle; every written byte has the
backlight bit `0x08` set and the mode bit `0x01` equal to `mode`, and the strobe
bit `0x04` is set in exactly the second and fourth writes. -/
theorem send_five_writes (b mode : Nat) (hb : b < 256) (hm : mode < 2) :
    busWrites (send b mode)
        = [ [(b &&& 0xF0) ||| 0x08 ||| mode],
            [(b &&& 0xF0) ||| 0x04 ||| 0x08 ||| mode],
            [((b &&& 0x0F) <<< 4) ||| 0x08 ||| mode],
            [((b &&& 0x0F) <<< 4) ||| 0x04 ||| 0x08 ||| mode],
            [0x08 ||| mode] ]
      ∧ (busBytes (send b mode)).length = 5
      ∧ (busBytes (send b mode)).all (fun w => decide (w < 256)) = true
      ∧ (busBytes (send b mode)).map (fun w => w &&& 0x08) = [0x08, 0x08, 0x08, 0x08, 0x08]
      ∧ (busBytes (send b mode)).map (fun w => w &&& 0x01) = [mode, mode, mode, mode, mode]
      ∧ (busBytes (send b mode)).map (fun w => w &&& 0x04) = [0, 0x04, 0, 0x04, 0] := by
  revert hm
  revert mode
  revert hb
  revert b
  decide

theorem send_five_writes_witness :
    busWrites (send 0x41 1)
        = [ [(0x41 &&& 0xF0) ||| 0x08 ||| 1],
            [(0x41 &&& 0xF0) ||| 0x04 ||| 0x08 ||| 1],
            [((0x41 &&& 0x0F) <<< 4) ||| 0x08 ||| 1],
            [((0x41 &&& 0x0F) <<< 4) ||| 0x04 ||| 0x08 ||| 1],
            [0x08 ||| 1] ]
      ∧ (busBytes (send 0x41 1)).length = 5
      ∧ (busBytes (send 0x41 1)).all (fun w => decide (w < 256)) = true
      ∧ (busBytes (send 0x41 1)).map (fun w => w &&& 0x08) = [0x08, 0x08, 0x08, 0x08, 0x08]
      ∧ (busBytes (send 0x41 1)).map (fun w => w &&& 0x01) = [1, 1, 1, 1, 1]
      ∧ (busBytes (send 0x41 1)).map (fun w => w &&& 0x04) = [0, 0x04, 0, 0x04, 0] :=
  send_five_writes 0x41 1 (by decide) (by decide)

/-- C5, as stated, fails: sending the clear-display command `0x01` in COMMAND
mode writes 5 bus bytes, not 10. -/
theorem send_clear_display_not_ten_bytes :
    (busBytes (send LCD_CLEARDISPLAY LCD_CMD)).length = 5
      ∧ ¬ (busBytes (send LCD_CLEARDISPLAY LCD_CMD)).length = 10 := by
  decide

/-- C5, amended: sending the clear-display command `0x01` in COMMAND mode
produces a waveform of 5 bus bytes, two per nibble (strobe clear, strobe set)
and a final idle byte, namely `0x08, 0x0C, 0x18, 0x1C, 0x08`; every byte has the
mode bit cleared and the backlight bit set. -/
theorem send_clear_display_waveform :
    busWrites (send LCD_CLEARDISPLAY LCD_CMD) = [[0x08], [0x0C], [0x18], [0x1C], [0x08]]
      ∧ busBytes (send LCD_CLEARDISPLAY LCD_CMD) = [0x08, 0x0C, 0x18, 0x1C, 0x08]
      ∧ (busBytes (send LCD_CLEARDISPLAY LCD_CMD)).map (fun w => w &&& 0x01) = [0, 0, 0, 0, 0]
      ∧ (busBytes (send LCD_CLEARDISPLAY LCD_CMD)).map (fun w => w &&& 0x08)
          = [0x08, 0x08, 0x08, 0x08, 0x08] := by
  decide

/-- C6, as stated, fails: the final idle write of a `send` is followed by a
settle delay of 25 microseconds, not 50. -/
theorem send_final_delay_not_fifty :
    (writeDelays (send 0x01 LCD_CMD)).bind List.getLast? = some ([0x08], 25)
      ∧ ¬ (writeDelays (send 0x01 LCD_CMD)).bind List.getLast? = some ([0x08], 50) := by
  decide

/-- C6, amended: for every byte and mode, one `send` is a trace of five
(bus write, settle delay) pairs, each write immediately followed by exactly one
delay: 25 microseconds after each write with the strobe bit clear (the two
nibble writes without strobe and the final idle write) and 50 microseconds
after each write with the strobe bit set. -/
theorem send_settle_delays (b mode : Nat) (hb : b < 256) (hm : mode < 2) :
    writeDelays (send b mode)
        = some [ ([(b &&& 0xF0) ||| 0x08 ||| mode], 25),
                 ([(b &&& 0xF0) ||| 0x04 ||| 0x08 ||| mode], 50),
                 ([((b &&& 0x0F) <<< 4) ||| 0x08 ||| mode], 25),
                 ([((b &&& 0x0F) <<< 4) ||| 0x04 ||| 0x08 ||| mode], 50),
                 ([0x08 ||| mode], 25) ]
      ∧ (send b mode).length = 10
      ∧ ∀ pairs, writeDelays (send b mode) = some pairs →
          pairs.all (fun wd =>
            decide (wd.2 = if wd.1.all (fun w => decide (w &&& 0x04 = 0x04)) then 50 else 25))
            = true := by
  have hsend := send_trace b mode
  have hwd : writeDelays (send b mode)
        = some [ ([(b &&& 0xF0) ||| 0x08 ||| mode], 25),
                 ([(b &&& 0xF0) ||| 0x04 ||| 0x08 ||| mode], 50),
                 ([((b &&& 0x0F) <<< 4) ||| 0x08 ||| mode], 25),
                 ([((b &&& 0x0F) <<< 4) ||| 0x04 ||| 0x08 ||| mode], 50),
                 ([0x08 ||| mode], 25) ] := by
    rw [hsend]
    rfl
  refine ⟨hwd, by rw [hsend]; rfl, ?_⟩
  intro pairs hp
  rw [hwd] at hp
  obtain ⟨s1, s2, s3, s4, s5⟩ := strobe_bits b hb mode hm
  have hpairs := (Option.some.inj hp).symm
  subst hpairs
  simp [s1, s2, s3, s4, s5]

theorem send_settle_delays_witness :
    writeDelays (send 0x41 1)
        = some [ ([(0x41 &&& 0xF0) ||| 0x08 ||| 1], 25),
                 ([(0x41 &&& 0xF0) ||| 0x04 ||| 0x08 ||| 1], 50),
                 ([((0x41 &&& 0x0F) <<< 4) ||| 0x08 ||| 1], 25),
                 ([((0x41 &&& 0x0F) <<< 4) ||| 0x04 ||| 0x08 ||| 1], 50),
                 ([0x08 ||| 1], 25) ]
      ∧ (send 0x41 1).length = 10
      ∧ ∀ pairs, writeDelays (send 0x41 1) = some pairs →
          pairs.all (fun wd =>
            decide (wd.2 = if wd.1.all (fun w => decide (w &&& 0x04 = 0x04)) then 50 else 25))
            = true :=
  send_settle_delays 0x41 1 (by decide) (by decide)

/-- C7: when the bus device opens, `initLCD` issues exactly seven sends before
returning, all in COMMAND mode, of the bytes `0x33, 0x32, 0x06, 0x0C, 0x28,
0x01, 0x02` in this order; the bytes are entry-mode-set with the left-to-right
flag, display-control with display on, function-set with two lines,
clear-display and return-home. -/
theorem initLCD_sends (i2cOpen : GoString → Nat → Except GoString Unit) (devpath : GoString)
    (hopen : i2cOpen devpath 0x27 = .ok ()) :
    initLCD i2cOpen devpath
        = .ok (sendAll [(0x33, LCD_CMD), (0x32, LCD_CMD), (0x06, LCD_CMD), (0x0C, LCD_CMD),
            (0x28, LCD_CMD), (0x01, LCD_CMD), (0x02, LCD_CMD)])
      ∧ LCD_CMD = 0
      ∧ LCD_ENTRYMODESET ||| LCD_ENTRYLEFT = 0x06
      ∧ LCD_DISPLAYCONTROL ||| LCD_DISPLAYON ||| LCD_CURSOROFF ||| LCD_BLINKOFF = 0x0C
      ∧ LCD_FUNCTIONSET ||| LCD_2LINE ||| LCD_5x8DOTS = 0x28
      ∧ LCD_CLEARDISPLAY = 0x01
      ∧ LCD_RETURNHOME = 0x02 := by
  refine ⟨?_, by decide, by decide, by decide, by decide, by decide, by decide⟩
  simp only [initLCD, hopen]
  rfl

theorem initLCD_sends_witness :
    initLCD (fun _ _ => .ok ()) (ascii "/dev/i2c-1")
        = .ok (sendAll [(0x33, LCD_CMD), (0x32, LCD_CMD), (0x06, LCD_CMD), (0x0C, LCD_CMD),
            (0x28, LCD_CMD), (0x01, LCD_CMD), (0x02, LCD_CMD)])
      ∧ LCD_CMD = 0
      ∧ LCD_ENTRYMODESET ||| LCD_ENTRYLEFT = 0x06
      ∧ LCD_DISPLAYCONTROL ||| LCD_DISPLAYON ||| LCD_CURSOROFF ||| LCD_BLINKOFF = 0x0C
      ∧ LCD_FUNCTIONSET ||| LCD_2LINE ||| LCD_5x8DOTS = 0x28
      ∧ LCD_CLEARDISPLAY = 0x01
      ∧ LCD_RETURNHOME = 0x02 :=
  initLCD_sends (fun _ _ => .ok ()) (ascii "/dev/i2c-1") rfl

/-! ## The registry -/

theorem lookup_store_self (m : BatchMap) (k : GoString) (b : Batch) :
    lookup (store m k b) k = some b := by
  induction m with
  | nil => simp [store, lookup]
  | cons kb rest ih =>
    obtain ⟨k1, b1⟩ := kb
    by_cases h : k1 = k
    · simp [store, lookup, h]
    · simp [store, lookup, h, ih]

theorem lookup_store_ne (m : BatchMap) (k k2 : GoString) (b : Batch) (h : k ≠ k2) :
    lookup (store m k b) k2 = lookup m k2 := by
  induction m with
  | nil => simp [store, lookup, h]
  | cons kb rest ih =>
    obtain ⟨k1, b1⟩ := kb
    by_cases h1 : k1 = k
    · subst h1
      simp [store, lookup, h]
    · by_cases h2 : k1 = k2
      · subst h2
        simp [store, lookup, h1]
      · simp [store, lookup, h1, h2, ih]

/-- The reading case, seen through the map: the entry of the probe of the
reading is the updated batch (created first when the probe was unknown), every
other entry is untouched. -/
theorem readingCase_lookup (m : BatchMap) (ev : ReadingEvent) (k : GoString) :
    lookup (readingCase m ev) k
      = if ev.tr.busid = k then
          some (updateBatch ((lookup m ev.tr.busid).getD (createBatch ev)) ev)
        else lookup m k := by
  cases hm : lookup m ev.tr.busid with
  | none =>
    by_cases hk : ev.tr.busid = k
    · subst hk
      simp [readingCase, hm, lookup_store_self, updateBatch, createBatch]
    · simp [readingCase, hm, lookup_store_self, lookup_store_ne _ _ _ _ hk, hk]
  | some b =>
    by_cases hk : ev.tr.busid = k
    · subst hk
      simp [readingCase, hm, lookup_store_self, updateBatch]
    · simp [readingCase, hm, lookup_store_ne _ _ _ _ hk, hk]

theorem run_append_singleton (m : BatchMap) (evs : List ReadingEvent) (ev : ReadingEvent) :
    run m (evs ++ [ev]) = readingCase (run m evs) ev := by
  simp [run, List.foldl_append]

theorem clampLimits_bounds (lo hi x : ℚ) (h : lo ≤ hi) :
    lo ≤ clampLimits (some lo) (some hi) x ∧ clampLimits (some lo) (some hi) x ≤ hi := by
  unfold clampLimits
  simp only
  split_ifs with h1 h2
  · exact ⟨h, le_refl _⟩
  · exact ⟨le_refl _, h⟩
  · exact ⟨not_lt.1 h2, not_lt.1 h1⟩

theorem firstReading_append_singleton (k : GoString) (evs : List ReadingEvent)
    (ev : ReadingEvent) :
    firstReading k (evs ++ [ev])
      = (firstReading k evs).or (if ev.tr.busid = k then some ev else none) := by
  by_cases h : ev.tr.busid = k <;> simp [firstReading, h]

theorem lastReading_append_singleton (k : GoString) (evs : List ReadingEvent)
    (ev : ReadingEvent) :
    lastReading k (evs ++ [ev])
      = if ev.tr.busid = k then some ev else lastReading k evs := by
  by_cases h : ev.tr.busid = k <;> simp [lastReading, firstReading, h]

theorem updateBatch_fields (b : Batch) (ev : ReadingEvent)
    (hmin : b.pc.outMin = some 0) (hmax : b.pc.outMax = some 100) :
    (updateBatch b ev).busid = b.busid ∧ (updateBatch b ev).target = b.target
      ∧ (updateBatch b ev).start = b.start ∧ (updateBatch b ev).temp = ev.tr.temp
      ∧ (updateBatch b ev).pc.p = b.pc.p ∧ (updateBatch b ev).pc.i = b.pc.i
      ∧ (updateBatch b ev).pc.d = b.pc.d ∧ (updateBatch b ev).pc.setpoint = b.pc.setpoint
      ∧ (updateBatch b ev).pc.outMin = b.pc.outMin ∧ (updateBatch b ev).pc.outMax = b.pc.outMax
      ∧ 0 ≤ (updateBatch b ev).pidset ∧ (updateBatch b ev).pidset ≤ 100 := by
  refine ⟨rfl, rfl, rfl, rfl, rfl, rfl, rfl, rfl, rfl, rfl, ?_⟩
  simp only [updateBatch, PIDController.Update, PIDController.UpdateDuration, hmin, hmax]
  exact clampLimits_bounds 0 100 _ (by norm_num)

theorem createBatch_fields (ev : ReadingEvent) :
    (createBatch ev).busid = ev.tr.busid ∧ (createBatch ev).target = 28
      ∧ (createBatch ev).start = ev.clockStart
      ∧ (createBatch ev).pc.p = 1 ∧ (createBatch ev).pc.i = 3 ∧ (createBatch ev).pc.d = 1 / 5
      ∧ (createBatch ev).pc.setpoint = 28
      ∧ (createBatch ev).pc.outMin = some 0 ∧ (createBatch ev).pc.outMax = some 100 :=
  ⟨rfl, rfl, rfl, rfl, rfl, rfl, rfl, rfl, rfl⟩

/-- The invariant of the control loop started on the empty registry: a probe is
known exactly when a reading for it was processed, and its batch carries the
identity set by its first reading, the temperature of its last reading, the
fixed controller settings and an output within the limits. -/
theorem run_invariant (evs : List ReadingEvent) (k : GoString) :
    (lookup (run [] evs) k = none → firstReading k evs = none)
      ∧ ∀ b, lookup (run [] evs) k = some b →
          ∃ e1 e2, firstReading k evs = some e1 ∧ lastReading k evs = some e2
            ∧ b.busid = k ∧ b.target = 28 ∧ b.start = e1.clockStart ∧ b.temp = e2.tr.temp
            ∧ b.pc.p = 1 ∧ b.pc.i = 3 ∧ b.pc.d = 1 / 5 ∧ b.pc.setpoint = 28
            ∧ b.pc.outMin = some 0 ∧ b.pc.outMax = some 100
            ∧ 0 ≤ b.pidset ∧ b.pidset ≤ 100 := by
  induction evs using List.reverseRecOn with
  | nil =>
    constructor
    · intro _
      rfl
    · intro b hb
      simp [run, lookup] at hb
  | append_singleton evs ev ih =>
    obtain ⟨ihnone, ihsome⟩ := ih
    rw [run_append_singleton, readingCase_lookup, firstReading_append_singleton,
      lastReading_append_singleton]
    by_cases hk : ev.tr.busid = k
    · subst hk
      simp only [if_true]
      constructor
      · intro h
        exact absurd h (by simp)
      · intro b hb
        have hb2 := (Option.some.inj hb).symm
        cases hm : lookup (run [] evs) ev.tr.busid with
        | none =>
          rw [hm] at hb2
          simp only [Option.getD_none] at hb2
          obtain ⟨c1, c2, c3, c4, c5, c6, c7, c8, c9⟩ := createBatch_fields ev
          obtain ⟨u1, u2, u3, u4, u5, u6, u7, u8, u9, u10, u11, u12⟩ :=
            updateBatch_fields (createBatch ev) ev c8 c9
          refine ⟨ev, ev, by simp [ihnone hm], rfl, ?_⟩
          subst hb2
          exact ⟨u1.trans c1, u2.trans c2, u3.trans c3, u4, u5.trans c4, u6.trans c5,
            u7.trans c6, u8.trans c7, u9.trans c8, u10.trans c9, u11, u12⟩
        | some b0 =>
          rw [hm] at hb2
          simp only [Option.getD_some] at hb2
          obtain ⟨e1, e2, hf, _, i1, i2, i3, _, i5, i6, i7, i8, i9, i10, _, _⟩ := ihsome b0 hm
          obtain ⟨u1, u2, u3, u4, u5, u6, u7, u8, u9, u10, u11, u12⟩ :=
            updateBatch_fields b0 ev i9 i10
          refine ⟨e1, ev, by simp [hf], rfl, ?_⟩
          subst hb2
          exact ⟨u1.trans i1, u2.trans i2, u3.trans i3, u4, u5.trans i5, u6.trans i6,
            u7.trans i7, u8.trans i8, u9.trans i9, u10.trans i10, u11, u12⟩
    · simp only [hk, if_false, Option.or_none]
      exact ⟨ihnone, ihsome⟩

theorem Seconds_eq (duration : Int) : Seconds duration = (duration : ℚ) / 1000000000 := by
  have h := Int.tdiv_add_tmod duration 1000000000
  have hq : (1000000000 : ℚ) * ((Int.tdiv duration 1000000000 : Int) : ℚ)
      + ((Int.tmod duration 1000000000 : Int) : ℚ) = (duration : ℚ) := by
    exact_mod_cast h
  unfold Seconds
  rw [← hq]
  field_simp
  ring

theorem Seconds_pos (duration : Int) (h : 0 < duration) : 0 < Seconds duration := by
  rw [Seconds_eq]
  have hq : (0 : ℚ) < (duration : ℚ) := by exact_mod_cast h
  positivity

theorem lt_clampLimits (lo hi x y : ℚ) (hxy : x < y) (hx : x < hi) :
    x < clampLimits (some lo) (some hi) y := by
  unfold clampLimits
  simp only
  split_ifs with h1 h2
  · exact hx
  · exact lt_trans hxy h2
  · exact hxy

theorem clampLimits_of_mem (lo hi x : ℚ) (h1 : lo ≤ x) (h2 : x ≤ hi) :
    clampLimits (some lo) (some hi) x = x := by
  unfold clampLimits
  simp only
  rw [if_neg (not_lt.2 h2), if_neg (not_lt.2 h1)]

/-! ## The control loop -/

/-- C8: over every sequence of readings processed from the empty registry, the
batch of every known probe `k` has target 28, probe id `k` and the start time
set by the first reading for `k`; its temperature is that of the last reading
for `k` and its controller keeps the gains 1, 3, 1/5, the setpoint 28 and the
limits 0 and 100.  A further reading for `k` leaves probe id, target, start
time and these controller settings as they are, sets the temperature to the
one of the reading, and takes the control output and the controller from one
`Update` of the controller the batch already had. -/
theorem readings_keep_identity (evs : List ReadingEvent) (k : GoString) (b : Batch)
    (h : lookup (run [] evs) k = some b) :
    b.target = 28 ∧ b.busid = k
      ∧ (∃ e1, firstReading k evs = some e1 ∧ b.start = e1.clockStart)
      ∧ (∃ e2, lastReading k evs = some e2 ∧ b.temp = e2.tr.temp)
      ∧ b.pc.p = 1 ∧ b.pc.i = 3 ∧ b.pc.d = 1 / 5 ∧ b.pc.setpoint = 28
      ∧ b.pc.outMin = some 0 ∧ b.pc.outMax = some 100
      ∧ ∀ ev : ReadingEvent, ev.tr.busid = k →
          ∃ b2, lookup (run [] (evs ++ [ev])) k = some b2
            ∧ b2.busid = b.busid ∧ b2.target = b.target ∧ b2.start = b.start
            ∧ b2.temp = ev.tr.temp
            ∧ b2.pidset = (b.pc.Update ev.tr.temp ev.clockSince ev.clockNow).1
            ∧ b2.pc = (b.pc.Update ev.tr.temp ev.clockSince ev.clockNow).2
            ∧ b2.pc.p = b.pc.p ∧ b2.pc.i = b.pc.i ∧ b2.pc.d = b.pc.d
            ∧ b2.pc.setpoint = b.pc.setpoint
            ∧ b2.pc.outMin = b.pc.outMin ∧ b2.pc.outMax = b.pc.outMax := by
  obtain ⟨e1, e2, hf, hl, i1, i2, i3, i4, i5, i6, i7, i8, i9, i10, _, _⟩ :=
    (run_invariant evs k).2 b h
  refine ⟨i2, i1, ⟨e1, hf, i3⟩, ⟨e2, hl, i4⟩, i5, i6, i7, i8, i9, i10, ?_⟩
  intro ev hev
  refine ⟨updateBatch b ev, ?_, rfl, rfl, rfl, rfl, rfl, rfl, rfl, rfl, rfl, rfl, rfl, rfl⟩
  rw [run_append_singleton, readingCase_lookup, if_pos hev, hev, h]
  rfl

theorem readings_keep_identity_witness :
    lookup (run [] [⟨⟨ascii "28-000005e2fdc3", 20⟩, 5, 6, 7⟩]) (ascii "28-000005e2fdc3")
        = some (updateBatch (createBatch ⟨⟨ascii "28-000005e2fdc3", 20⟩, 5, 6, 7⟩)
            ⟨⟨ascii "28-000005e2fdc3", 20⟩, 5, 6, 7⟩)
      ∧ (updateBatch (createBatch ⟨⟨ascii "28-000005e2fdc3", 20⟩, 5, 6, 7⟩)
            ⟨⟨ascii "28-000005e2fdc3", 20⟩, 5, 6, 7⟩).target = 28
      ∧ (updateBatch (createBatch ⟨⟨ascii "28-000005e2fdc3", 20⟩, 5, 6, 7⟩)
            ⟨⟨ascii "28-000005e2fdc3", 20⟩, 5, 6, 7⟩).busid = ascii "28-000005e2fdc3" :=
  ⟨rfl,
   (readings_keep_identity [⟨⟨ascii "28-000005e2fdc3", 20⟩, 5, 6, 7⟩] (ascii "28-000005e2fdc3")
      (updateBatch (createBatch ⟨⟨ascii "28-000005e2fdc3", 20⟩, 5, 6, 7⟩)
        ⟨⟨ascii "28-000005e2fdc3", 20⟩, 5, 6, 7⟩) rfl).1,
   (readings_keep_identity [⟨⟨ascii "28-000005e2fdc3", 20⟩, 5, 6, 7⟩] (ascii "28-000005e2fdc3")
      (updateBatch (createBatch ⟨⟨ascii "28-000005e2fdc3", 20⟩, 5, 6, 7⟩)
        ⟨⟨ascii "28-000005e2fdc3", 20⟩, 5, 6, 7⟩) rfl).2.1⟩

/-- C9: over every sequence of readings processed from the empty registry,
whatever the temperatures and the clock values, the control output stored for
every known probe lies in the closed interval from 0 to 100, and it was
computed by a controller with gains 1, 3, 1/5, setpoint 28 and limits 0 and
100. -/
theorem control_output_within_limits (evs : List ReadingEvent) (k : GoString) (b : Batch)
    (h : lookup (run [] evs) k = some b) :
    0 ≤ b.pidset ∧ b.pidset ≤ 100
      ∧ b.pc.p = 1 ∧ b.pc.i = 3 ∧ b.pc.d = 1 / 5 ∧ b.pc.setpoint = 28
      ∧ b.pc.outMin = some 0 ∧ b.pc.outMax = some 100 := by
  obtain ⟨_, _, _, _, _, _, _, _, i5, i6, i7, i8, i9, i10, i11, i12⟩ :=
    (run_invariant evs k).2 b h
  exact ⟨i11, i12, i5, i6, i7, i8, i9, i10⟩

theorem control_output_within_limits_witness :
    lookup (run [] [⟨⟨ascii "28-000005e2fdc3", -9999 / 1000⟩, 5, 6, 7⟩]) (ascii "28-000005e2fdc3")
        = some (updateBatch (createBatch ⟨⟨ascii "28-000005e2fdc3", -9999 / 1000⟩, 5, 6, 7⟩)
            ⟨⟨ascii "28-000005e2fdc3", -9999 / 1000⟩, 5, 6, 7⟩)
      ∧ 0 ≤ (updateBatch (createBatch ⟨⟨ascii "28-000005e2fdc3", -9999 / 1000⟩, 5, 6, 7⟩)
            ⟨⟨ascii "28-000005e2fdc3", -9999 / 1000⟩, 5, 6, 7⟩).pidset
      ∧ (updateBatch (createBatch ⟨⟨ascii "28-000005e2fdc3", -9999 / 1000⟩, 5, 6, 7⟩)
            ⟨⟨ascii "28-000005e2fdc3", -9999 / 1000⟩, 5, 6, 7⟩).pidset ≤ 100 :=
  ⟨rfl,
   (control_output_within_limits [⟨⟨ascii "28-000005e2fdc3", -9999 / 1000⟩, 5, 6, 7⟩]
      (ascii "28-000005e2fdc3")
      (updateBatch (createBatch ⟨⟨ascii "28-000005e2fdc3", -9999 / 1000⟩, 5, 6, 7⟩)
        ⟨⟨ascii "28-000005e2fdc3", -9999 / 1000⟩, 5, 6, 7⟩) rfl).1,
   (control_output_within_limits [⟨⟨ascii "28-000005e2fdc3", -9999 / 1000⟩, 5, 6, 7⟩]
      (ascii "28-000005e2fdc3")
      (updateBatch (createBatch ⟨⟨ascii "28-000005e2fdc3", -9999 / 1000⟩, 5, 6, 7⟩)
        ⟨⟨ascii "28-000005e2fdc3", -9999 / 1000⟩, 5, 6, 7⟩) rfl).2.1⟩

/-- C10, as stated, fails: a first reading of 20.0 gives the control output 8;
a second reading of 27.9 for the same probe, one second later, also below the
target, gives the control output 0, which is not larger. -/
theorem second_reading_lowers_output :
    (lookup (run [] [⟨⟨ascii "28-000005e2fdc3", 20⟩, 0, 0, 0⟩]) (ascii "28-000005e2fdc3")).map
        Batch.pidset = some 8
      ∧ (lookup (run [] [⟨⟨ascii "28-000005e2fdc3", 20⟩, 0, 0, 0⟩,
            ⟨⟨ascii "28-000005e2fdc3", 279 / 10⟩, 1000000000, 1000000000, 1000000000⟩])
          (ascii "28-000005e2fdc3")).map Batch.pidset = some 0
      ∧ ¬ ((8 : ℚ) < 0) := by
  refine ⟨?_, ?_, by norm_num⟩
  · simp only [run, List.foldl_cons, List.foldl_nil, readingCase_lookup, if_true, lookup,
      Option.getD_none, Option.map_some', updateBatch, createBatch, PIDController.Update,
      PIDController.UpdateDuration, NewPIDController, PIDController.SetOutputLimits,
      PIDController.Set, clampLimits, Seconds_eq]
    norm_num
  · simp only [run, List.foldl_cons, List.foldl_nil, readingCase_lookup, if_true, lookup,
      Option.getD_none, Option.getD_some, Option.map_some', updateBatch, createBatch,
      PIDController.Update, PIDController.UpdateDuration, NewPIDController,
      PIDController.SetOutputLimits, PIDController.Set, clampLimits, Seconds_eq]
    norm_num

/-- The batch after the first reading of a new probe whose temperature is
between -72 and 28: the output is the error `28 - temp`, nothing is accumulated. -/
theorem first_update (e1 : ReadingEvent) (h1 : e1.tr.temp < 28) (hlo : -72 < e1.tr.temp) :
    (updateBatch (createBatch e1) e1).pidset = 28 - e1.tr.temp
      ∧ (updateBatch (createBatch e1) e1).pc
          = { p := 1, i := 3, d := 1 / 5, setpoint := 28, prevValue := e1.tr.temp,
              integral := 0, lastUpdate := some e1.clockNow,
              outMin := some 0, outMax := some 100 } := by
  have hz : clampLimits (some 0) (some 100) 0 = 0 :=
    clampLimits_of_mem 0 100 0 (le_refl _) (by norm_num)
  have hs : Seconds 0 = 0 := by
    rw [Seconds_eq]
    norm_num
  have he : clampLimits (some 0) (some 100) (28 - e1.tr.temp) = 28 - e1.tr.temp :=
    clampLimits_of_mem 0 100 _ (by linarith) (by linarith)
  simp only [updateBatch, createBatch, PIDController.Update, PIDController.UpdateDuration,
    NewPIDController, PIDController.SetOutputLimits, PIDController.Set, hz, hs, lt_irrefl,
    gt_iff_lt, if_false, mul_zero, zero_mul, add_zero, one_mul, he]
  exact ⟨trivial, trivial⟩

/-- C10, amended: for a probe unknown to the registry, a first reading with a
temperature between -72 and 28 and a second reading for the same probe, with a
temperature not above the first and a positive elapsed time since the first
step, the second reading is processed by one `Update` of the controller the
first reading left (no new controller is created) and the control output after
both readings is strictly larger than the control output after the first. -/
theorem second_reading_raises_output (m : BatchMap) (e1 e2 : ReadingEvent)
    (hnew : lookup m e1.tr.busid = none)
    (hsame : e2.tr.busid = e1.tr.busid)
    (h1 : e1.tr.temp < 28) (hlo : -72 < e1.tr.temp)
    (h2 : e2.tr.temp ≤ e1.tr.temp)
    (hdt : e1.clockNow < e2.clockSince) :
    ∃ b1 b2, lookup (run m [e1]) e1.tr.busid = some b1
      ∧ lookup (run m [e1, e2]) e1.tr.busid = some b2
      ∧ b2.pc = (b1.pc.Update e2.tr.temp e2.clockSince e2.clockNow).2
      ∧ b2.pidset = (b1.pc.Update e2.tr.temp e2.clockSince e2.clockNow).1
      ∧ b1.pidset < b2.pidset := by
  have hl1 : lookup (run m [e1]) e1.tr.busid = some (updateBatch (createBatch e1) e1) := by
    show lookup (readingCase m e1) e1.tr.busid = _
    rw [readingCase_lookup, if_pos rfl, hnew]
    rfl
  have hl2 : lookup (run m [e1, e2]) e1.tr.busid
      = some (updateBatch (updateBatch (createBatch e1) e1) e2) := by
    show lookup (readingCase (readingCase m e1) e2) e1.tr.busid = _
    rw [readingCase_lookup, if_pos hsame, hsame]
    show some (updateBatch ((lookup (run m [e1]) e1.tr.busid).getD (createBatch e2)) e2) = _
    rw [hl1]
    rfl
  refine ⟨_, _, hl1, hl2, rfl, rfl, ?_⟩
  obtain ⟨hp1, hpc1⟩ := first_update e1 h1 hlo
  have hdur : 0 < Seconds (e2.clockSince - e1.clockNow) := Seconds_pos _ (by omega)
  have hint : 0 < clampLimits (some 0) (some 100)
      (0 + (28 - e2.tr.temp) * Seconds (e2.clockSince - e1.clockNow) * 3) := by
    apply lt_clampLimits
    · have : 0 < 28 - e2.tr.temp := by linarith
      positivity
    · norm_num
  have hder : 0 ≤ -((e2.tr.temp - e1.tr.temp) / Seconds (e2.clockSince - e1.clockNow)) := by
    rw [neg_nonneg]
    apply div_nonpos_of_nonpos_of_nonneg
    · linarith
    · exact le_of_lt hdur
  rw [hp1]
  show 28 - e1.tr.temp
      < ((updateBatch (createBatch e1) e1).pc.Update e2.tr.temp e2.clockSince e2.clockNow).1
  rw [hpc1]
  simp only [PIDController.Update, PIDController.UpdateDuration, gt_iff_lt, if_pos hdur]
  apply lt_clampLimits
  · linarith
  · linarith

theorem second_reading_raises_output_witness :
    ∃ b1 b2,
      lookup (run [] [⟨⟨ascii "28-000005e2fdc3", 20⟩, 0, 0, 0⟩]) (ascii "28-000005e2fdc3")
          = some b1
        ∧ lookup (run [] [⟨⟨ascii "28-000005e2fdc3", 20⟩, 0, 0, 0⟩,
              ⟨⟨ascii "28-000005e2fdc3", 19⟩, 1000000000, 1000000000, 1000000000⟩])
            (ascii "28-000005e2fdc3") = some b2
        ∧ b2.pc = (b1.pc.Update 19 1000000000 1000000000).2
        ∧ b2.pidset = (b1.pc.Update 19 1000000000 1000000000).1
        ∧ b1.pidset < b2.pidset :=
  second_reading_raises_output []
    ⟨⟨ascii "28-000005e2fdc3", 20⟩, 0, 0, 0⟩
    ⟨⟨ascii "28-000005e2fdc3", 19⟩, 1000000000, 1000000000, 1000000000⟩
    rfl rfl (by norm_num) (by norm_num) (by norm_num) (by decide)

/-! ## The set of known probes -/

theorem mem_knownProbes_iff (m : BatchMap) (k : GoString) :
    k ∈ knownProbes m ↔ ∃ b, lookup m k = some b := by
  induction m with
  | nil => simp [knownProbes, lookup]
  | cons kb rest ih =>
    obtain ⟨k1, b1⟩ := kb
    have ih2 : k ∈ List.map Prod.fst rest ↔ ∃ b, lookup rest k = some b := ih
    by_cases h : k1 = k
    · simp [knownProbes, lookup, h]
    · have h2 : ¬ k = k1 := fun e => h e.symm
      simp only [knownProbes, List.map_cons, List.mem_cons, h2, false_or, lookup, h, if_false]
      exact ih2

theorem knownProbes_store (m : BatchMap) (k : GoString) (b : Batch) :
    knownProbes (store m k b)
      = if k ∈ knownProbes m then knownProbes m else knownProbes m ++ [k] := by
  induction m with
  | nil => simp [knownProbes, store]
  | cons kb rest ih =>
    obtain ⟨k1, b1⟩ := kb
    have ih2 : List.map Prod.fst (store rest k b)
        = if k ∈ List.map Prod.fst rest then List.map Prod.fst rest
          else List.map Prod.fst rest ++ [k] := ih
    by_cases h : k1 = k
    · subst h
      simp [knownProbes, store]
    · have h2 : ¬ k = k1 := fun e => h e.symm
      simp only [knownProbes, store, h, if_false, List.map_cons, List.mem_cons, h2, false_or,
        ih2]
      split_ifs <;> simp

/-- The reading case as one or two map writes. -/
theorem readingCase_eq_store (m : BatchMap) (ev : ReadingEvent) :
    readingCase m ev
      = match lookup m ev.tr.busid with
        | some b => store m ev.tr.busid (updateBatch b ev)
        | none =>
          store (store m ev.tr.busid (createBatch ev)) ev.tr.busid
            (updateBatch (createBatch ev) ev) := by
  cases hm : lookup m ev.tr.busid with
  | none => simp [readingCase, hm, lookup_store_self, updateBatch, createBatch]
  | some b => simp [readingCase, hm, updateBatch]

theorem knownProbes_readingCase (m : BatchMap) (ev : ReadingEvent) :
    knownProbes (readingCase m ev)
      = if ev.tr.busid ∈ knownProbes m then knownProbes m
        else knownProbes m ++ [ev.tr.busid] := by
  rw [readingCase_eq_store]
  cases hm : lookup m ev.tr.busid with
  | none =>
    have hnot : ¬ ev.tr.busid ∈ knownProbes m := by
      rw [mem_knownProbes_iff]
      simp [hm]
    simp only [knownProbes_store, hnot, if_false, List.mem_append, List.mem_singleton, or_true,
      if_true]
  | some b =>
    have hin : ev.tr.busid ∈ knownProbes m := (mem_knownProbes_iff m _).2 ⟨b, hm⟩
    simp only [knownProbes_store, hin, if_true]

theorem run_cons (m : BatchMap) (ev : ReadingEvent) (evs : List ReadingEvent) :
    run m (ev :: evs) = run (readingCase m ev) evs := rfl

theorem mem_knownProbes_run (evs : List ReadingEvent) (m : BatchMap) (k : GoString) :
    k ∈ knownProbes (run m evs) ↔ k ∈ knownProbes m ∨ ∃ e ∈ evs, e.tr.busid = k := by
  induction evs generalizing m with
  | nil => simp [run]
  | cons ev evs ih =>
    rw [run_cons, ih, knownProbes_readingCase]
    by_cases hin : ev.tr.busid ∈ knownProbes m
    · simp only [hin, if_true, List.mem_cons, exists_eq_or_imp]
      constructor
      · rintro (h | h)
        · exact Or.inl h
        · exact Or.inr (Or.inr h)
      · rintro (h | h | h)
        · exact Or.inl h
        · exact Or.inl (h ▸ hin)
        · exact Or.inr h
    · simp only [hin, if_false, List.mem_append, List.mem_singleton, List.mem_cons,
        exists_eq_or_imp, List.not_mem_nil, or_false]
      constructor
      · rintro ((h | h) | h)
        · exact Or.inl h
        · exact Or.inr (Or.inl h.symm)
        · exact Or.inr (Or.inr h)
      · rintro (h | h | h)
        · exact Or.inl (Or.inl h)
        · exact Or.inl (Or.inr h.symm)
        · exact Or.inr h

/-- C11: processing a reading for probe `p` removes no entry of the registry
and leaves the batch of every other probe as it was; when `p` is unknown
exactly one entry, keyed `p`, is added, otherwise the known probe ids are
unchanged.  Over any sequence of readings the known probe ids only grow, and
from the empty registry they are exactly the probe ids read so far. -/
theorem readingCase_frame (m : BatchMap) (ev : ReadingEvent) :
    (∀ k, k ≠ ev.tr.busid → lookup (readingCase m ev) k = lookup m k)
      ∧ (∀ k, k ∈ knownProbes m → k ∈ knownProbes (readingCase m ev))
      ∧ (ev.tr.busid ∉ knownProbes m →
          knownProbes (readingCase m ev) = knownProbes m ++ [ev.tr.busid])
      ∧ (ev.tr.busid ∈ knownProbes m → knownProbes (readingCase m ev) = knownProbes m)
      ∧ (∀ k, k ∈ knownProbes m ↔ ∃ b, lookup m k = some b)
      ∧ (∀ evs k, k ∈ knownProbes m → k ∈ knownProbes (run m evs))
      ∧ (∀ evs k, k ∈ knownProbes (run [] evs) ↔ ∃ e ∈ evs, e.tr.busid = k) := by
  refine ⟨?_, ?_, ?_, ?_, mem_knownProbes_iff m, ?_, ?_⟩
  · intro k hk
    rw [readingCase_lookup, if_neg (fun e => hk e.symm)]
  · intro k hk
    rw [knownProbes_readingCase]
    split_ifs
    · exact hk
    · exact List.mem_append_left _ hk
  · intro h
    rw [knownProbes_readingCase, if_neg h]
  · intro h
    rw [knownProbes_readingCase, if_pos h]
  · intro evs k hk
    exact (mem_knownProbes_run evs m k).2 (Or.inl hk)
  · intro evs k
    rw [mem_knownProbes_run]
    simp [knownProbes]

/-! ## The render case -/

theorem busWrites_append (t1 t2 : List BusEvent) :
    busWrites (t1 ++ t2) = busWrites t1 ++ busWrites t2 := by
  induction t1 with
  | nil => rfl
  | cons e rest ih =>
    cases e with
    | write bytes => simp [busWrites, ih]
    | sleep micros => simp [busWrites, ih]

theorem busWrites_send_length (b mode : Nat) : (busWrites (send b mode)).length = 5 := rfl

theorem busWrites_sendAll_length (sends : List (Nat × Nat)) :
    (busWrites (sendAll sends)).length = 5 * sends.length := by
  induction sends with
  | nil => rfl
  | cons bm rest ih =>
    obtain ⟨b, mode⟩ := bm
    simp only [sendAll, busWrites_append, List.length_append, busWrites_send_length, ih,
      List.length_cons]
    omega

theorem sendText_eq_sendAll (s : GoString) :
    sendText s = sendAll (s.map fun c => (c, LCD_CHR)) := by
  induction s with
  | nil => rfl
  | cons c rest ih => simp [sendText, sendAll, ih]

/-- C12: for every batch rendered, whatever the probe and the clock, the bus
trace is that of one COMMAND-mode send of the line-1 address `0x80` followed by
one CHARACTER-mode send per byte of the message, in order: a message of `n`
bytes makes `n + 1` sends and `5 * (n + 1)` bus writes. -/
theorem renderBatch_sends (batch : Batch) (clock : Int) :
    renderBatch batch clock
        = sendAll ((LCD_LINE_1, LCD_CMD) :: (message batch clock).map fun c => (c, LCD_CHR))
      ∧ LCD_LINE_1 = 0x80 ∧ LCD_CMD = 0 ∧ LCD_CHR = 1
      ∧ ((LCD_LINE_1, LCD_CMD) :: (message batch clock).map fun c => (c, LCD_CHR)).length
          = (message batch clock).length + 1
      ∧ (busWrites (renderBatch batch clock)).length = 5 * ((message batch clock).length + 1) := by
  have h1 : renderBatch batch clock
      = sendAll ((LCD_LINE_1, LCD_CMD) :: (message batch clock).map fun c => (c, LCD_CHR)) := by
    simp only [renderBatch, sendAll, sendText_eq_sendAll]
  refine ⟨h1, rfl, rfl, rfl, by simp, ?_⟩
  rw [h1, busWrites_sendAll_length]
  simp

/-! ## Rounding to float64 -/

theorem roundHalfEven_near (x : ℚ) (hx : 0 ≤ x) :
    |x - (roundHalfEven x : ℚ)| ≤ 1 / 2 := by
  have hfl : (0 : Int) ≤ Int.floor x := Int.floor_nonneg.2 hx
  have hf : (((Int.floor x).toNat : Nat) : ℚ) = ((Int.floor x : Int) : ℚ) := by
    have := Int.toNat_of_nonneg hfl
    exact_mod_cast this
  have h1 : ((Int.floor x : Int) : ℚ) ≤ x := Int.floor_le x
  have h2 : x < ((Int.floor x : Int) : ℚ) + 1 := Int.lt_floor_add_one x
  rw [abs_le]
  unfold roundHalfEven
  simp only
  split_ifs with c1 c2 c3
  · rw [hf] at c1 ⊢
    constructor <;> linarith
  · rw [hf] at c2
    push_cast
    rw [hf]
    constructor <;> linarith
  · rw [hf]
    constructor <;> linarith
  · rw [hf] at c1 c2
    push_cast
    rw [hf]
    constructor <;> linarith

theorem roundHalfEven_natCast (n : Nat) : roundHalfEven (n : ℚ) = n := by
  have hfl : Int.floor ((n : ℚ)) = (n : Int) := Int.floor_natCast n
  simp [roundHalfEven, hfl]

theorem roundHalfEven_eq_of_near (x : ℚ) (n : Nat) (hx : 0 ≤ x)
    (h : |x - (n : ℚ)| < 1 / 2) : roundHalfEven x = n := by
  have h1 := roundHalfEven_near x hx
  rw [abs_le] at h1
  rw [abs_lt] at h
  obtain ⟨a1, a2⟩ := h1
  obtain ⟨b1, b2⟩ := h
  have c1 : ((roundHalfEven x : Nat) : ℚ) < (n : ℚ) + 1 := by linarith
  have c2 : (n : ℚ) < ((roundHalfEven x : Nat) : ℚ) + 1 := by linarith
  have d1 : roundHalfEven x < n + 1 := by exact_mod_cast c1
  have d2 : n < roundHalfEven x + 1 := by exact_mod_cast c2
  omega

theorem le_roundHalfEven (m : Nat) (y : ℚ) (h : (m : ℚ) ≤ y) : m ≤ roundHalfEven y := by
  have hy : 0 ≤ y := le_trans (by positivity) h
  have h1 := roundHalfEven_near y hy
  rw [abs_le] at h1
  obtain ⟨_, a2⟩ := h1
  by_contra hlt
  have hlt2 : roundHalfEven y + 1 ≤ m := by omega
  have hq : ((roundHalfEven y : Nat) : ℚ) + 1 ≤ (m : ℚ) := by exact_mod_cast hlt2
  linarith

/-- The value of `float64` on a positive number of a known binade. -/
theorem float64_of_binade (x : ℚ) (e : Int) (h1 : (2 : ℚ) ^ e ≤ x) (h2 : x < (2 : ℚ) ^ (e + 1))
    (he : -1022 ≤ e) :
    float64 x = (roundHalfEven (x / (2 : ℚ) ^ (e - 52)) : ℚ) * (2 : ℚ) ^ (e - 52) := by
  have hx : 0 < x := lt_of_lt_of_le (by positivity) h1
  have hlog : Int.log 2 x = e := by
    have a : e ≤ Int.log 2 x := (Int.zpow_le_iff_le_log (by norm_num) hx).1 (by exact_mod_cast h1)
    have b : Int.log 2 x < e + 1 :=
      (Int.lt_zpow_iff_log_lt (by norm_num) hx).1 (by exact_mod_cast h2)
    omega
  have hne : x ≠ 0 := ne_of_gt hx
  have hnn : ¬ x < 0 := not_lt.2 (le_of_lt hx)
  simp only [float64, hne, if_false, hnn, abs_of_pos hx, hlog, max_eq_left he]

theorem binade_exists (x : ℚ) (hx : 0 < x) :
    (2 : ℚ) ^ (Int.log 2 x) ≤ x ∧ x < (2 : ℚ) ^ (Int.log 2 x + 1) := by
  constructor
  · have := Int.zpow_log_le_self (b := 2) (r := x) (by norm_num) hx
    exact_mod_cast this
  · have := Int.lt_zpow_succ_log_self (b := 2) (by norm_num) x
    exact_mod_cast this

theorem float64_nonneg (x : ℚ) (hx : 0 ≤ x) : 0 ≤ float64 x := by
  unfold float64
  simp only
  split_ifs with h0 hneg
  · exact le_refl _
  · exact absurd hneg (not_lt.2 hx)
  · positivity

/-- A positive number below `2 ^ k` is rounded up by at most half a unit in the
last place of that range. -/
theorem float64_le_add (x : ℚ) (k : Int) (hx : 0 < x) (hk : x < (2 : ℚ) ^ k)
    (hk2 : -1021 ≤ k) : float64 x ≤ x + (2 : ℚ) ^ (k - 54) := by
  have hne : x ≠ 0 := ne_of_gt hx
  have hnn : ¬ x < 0 := not_lt.2 (le_of_lt hx)
  have hlog : Int.log 2 x < k :=
    (Int.lt_zpow_iff_log_lt (by norm_num) hx).1 (by exact_mod_cast hk)
  have he : max (Int.log 2 x) (-1022) - 52 ≤ k - 53 := by
    have := max_le (a := Int.log 2 x) (b := -1022) (c := k - 1) (by omega) (by omega)
    omega
  have hulp : (2 : ℚ) ^ (max (Int.log 2 x) (-1022) - 52) ≤ (2 : ℚ) ^ (k - 53) :=
    zpow_le_zpow_right₀ (by norm_num) he
  have hpos : (0 : ℚ) < (2 : ℚ) ^ (max (Int.log 2 x) (-1022) - 52) := by positivity
  have hnear := roundHalfEven_near (x / (2 : ℚ) ^ (max (Int.log 2 x) (-1022) - 52))
    (by positivity)
  rw [abs_le] at hnear
  obtain ⟨n1, _⟩ := hnear
  have hn : (roundHalfEven (x / (2 : ℚ) ^ (max (Int.log 2 x) (-1022) - 52)) : ℚ)
      ≤ x / (2 : ℚ) ^ (max (Int.log 2 x) (-1022) - 52) + 1 / 2 := by linarith
  have hmul := mul_le_mul_of_nonneg_right hn (le_of_lt hpos)
  rw [add_mul, div_mul_cancel₀ _ (ne_of_gt hpos)] at hmul
  have hhalf : (2 : ℚ) ^ (k - 54) = (2 : ℚ) ^ (k - 53) / 2 := by
    have : k - 53 = (k - 54) + 1 := by ring
    rw [this, zpow_add_one₀ (by norm_num)]
    ring
  simp only [float64, hne, if_false, hnn, abs_of_pos hx]
  rw [hhalf]
  linarith

theorem zpow_sub_nat (e : Int) (he : e ≤ 52) :
    (2 : ℚ) ^ (e - 52) = 1 / ((2 ^ (52 - e).toNat : Nat) : ℚ) := by
  have h : e - 52 = -(((52 - e).toNat : Nat) : Int) := by
    rw [Int.toNat_of_nonneg (by omega)]
    ring
  rw [h, zpow_neg, zpow_natCast]
  push_cast
  rw [one_div]

/-- A number at or above the natural number `w`, in the range where the
integers are representable, is not rounded below `w`. -/
theorem le_float64 (w : Nat) (x : ℚ) (hw : (w : ℚ) ≤ x) (hx : x < (2 : ℚ) ^ (53 : Int)) :
    (w : ℚ) ≤ float64 x := by
  by_cases hw0 : w = 0
  · subst hw0
    simpa using float64_nonneg x (by simpa using hw)
  have hw1 : (1 : ℚ) ≤ (w : ℚ) := by
    have : 1 ≤ w := by omega
    exact_mod_cast this
  have hxpos : 0 < x := by linarith
  obtain ⟨b1, b2⟩ := binade_exists x hxpos
  have hlog53 : Int.log 2 x < 53 :=
    (Int.lt_zpow_iff_log_lt (by norm_num) hxpos).1 (by exact_mod_cast hx)
  have hlog0 : 0 ≤ Int.log 2 x := by
    have : (0 : Int) ≤ Int.log 2 x :=
      (Int.zpow_le_iff_le_log (b := 2) (by norm_num) hxpos).1 (by simpa using le_trans hw1 hw)
    exact this
  rw [float64_of_binade x (Int.log 2 x) b1 b2 (by omega),
    zpow_sub_nat (Int.log 2 x) (by omega)]
  have hp : (0 : ℚ) < ((2 ^ (52 - Int.log 2 x).toNat : Nat) : ℚ) := by positivity
  have hm : ((w * 2 ^ (52 - Int.log 2 x).toNat : Nat) : ℚ)
      ≤ x / (1 / ((2 ^ (52 - Int.log 2 x).toNat : Nat) : ℚ)) := by
    rw [div_div_eq_mul_div, div_one]
    push_cast
    exact mul_le_mul_of_nonneg_right hw (by positivity)
  have hr := le_roundHalfEven _ _ hm
  have hrq : ((w * 2 ^ (52 - Int.log 2 x).toNat : Nat) : ℚ)
      ≤ (roundHalfEven (x / (1 / ((2 ^ (52 - Int.log 2 x).toNat : Nat) : ℚ))) : ℚ) := by
    exact_mod_cast hr
  rw [mul_one_div, le_div_iff₀ hp]
  push_cast at hrq ⊢
  exact hrq

/-- The natural numbers below `2 ^ 53` are representable. -/
theorem float64_natCast (n : Nat) (h : n < 2 ^ 53) : float64 (n : ℚ) = n := by
  by_cases hn0 : n = 0
  · subst hn0
    simp [float64]
  have hn1 : (1 : ℚ) ≤ (n : ℚ) := by
    have : 1 ≤ n := by omega
    exact_mod_cast this
  have hxpos : (0 : ℚ) < (n : ℚ) := by linarith
  have hx53 : (n : ℚ) < (2 : ℚ) ^ (53 : Int) := by
    have h2 : (n : ℚ) < ((2 ^ 53 : Nat) : ℚ) := by exact_mod_cast h
    have e : (2 : ℚ) ^ (53 : Int) = ((2 ^ 53 : Nat) : ℚ) := by norm_num
    rw [e]
    exact h2
  obtain ⟨b1, b2⟩ := binade_exists (n : ℚ) hxpos
  have hlog53 : Int.log 2 (n : ℚ) < 53 :=
    (Int.lt_zpow_iff_log_lt (by norm_num) hxpos).1 (by exact_mod_cast hx53)
  have hlog0 : 0 ≤ Int.log 2 (n : ℚ) :=
    (Int.zpow_le_iff_le_log (b := 2) (by norm_num) hxpos).1 (by simpa using hn1)
  rw [float64_of_binade (n : ℚ) (Int.log 2 (n : ℚ)) b1 b2 (by omega),
    zpow_sub_nat (Int.log 2 (n : ℚ)) (by omega)]
  have hp : (0 : ℚ) < ((2 ^ (52 - Int.log 2 (n : ℚ)).toNat : Nat) : ℚ) := by positivity
  have hm : (n : ℚ) / (1 / ((2 ^ (52 - Int.log 2 (n : ℚ)).toNat : Nat) : ℚ))
      = ((n * 2 ^ (52 - Int.log 2 (n : ℚ)).toNat : Nat) : ℚ) := by
    rw [div_div_eq_mul_div, div_one]
    push_cast
    ring
  rw [hm, roundHalfEven_natCast]
  push_cast
  field_simp


/-- Below the range where the rounding of the sum can reach the next whole
unit, `int(float64(whole) + float64(rest)/unit)` is the whole part. -/
theorem truncInt_unitsFloat64 (u n : Nat) (k : Int) (hu : 0 < u) (hu53 : u < 2 ^ 53)
    (hk0 : 0 ≤ k) (hk53 : k ≤ 53) (hw : ((n / u : Nat) : ℚ) + 1 ≤ (2 : ℚ) ^ k)
    (hgap : (2 : ℚ) ^ (k - 54) + (2 : ℚ) ^ ((0 : Int) - 54) < 1 / (u : ℚ)) :
    truncInt (unitsFloat64 (u : Int) (n : Int)) = ((n / u : Nat) : Int) := by
  have huq : (0 : ℚ) < (u : ℚ) := by exact_mod_cast hu
  have hk53q : (2 : ℚ) ^ k ≤ (2 : ℚ) ^ (53 : Int) := zpow_le_zpow_right₀ (by norm_num) hk53
  have h253 : (2 : ℚ) ^ (53 : Int) = ((2 ^ 53 : Nat) : ℚ) := by norm_num
  have hwlt : n / u < 2 ^ 53 := by
    have : ((n / u : Nat) : ℚ) < ((2 ^ 53 : Nat) : ℚ) := by
      rw [← h253]
      linarith
    exact_mod_cast this
  have hrlt : n % u < u := Nat.mod_lt n hu
  have hd : Int.tdiv (n : Int) (u : Int) = ((n / u : Nat) : Int) := (Int.ofNat_tdiv n u).symm
  have hm : Int.tmod (n : Int) (u : Int) = ((n % u : Nat) : Int) := (Int.ofNat_tmod n u).symm
  have hfw : float64 ((n / u : Nat) : ℚ) = ((n / u : Nat) : ℚ) := float64_natCast _ hwlt
  have hfr : float64 ((n % u : Nat) : ℚ) = ((n % u : Nat) : ℚ) :=
    float64_natCast _ (by omega)
  have hy1 : ((n % u : Nat) : ℚ) / (u : ℚ) ≤ 1 - 1 / (u : ℚ) := by
    have h1 : n % u + 1 ≤ u := hrlt
    have h2 : ((n % u : Nat) : ℚ) + 1 ≤ (u : ℚ) := by exact_mod_cast h1
    rw [div_le_iff₀ huq, sub_mul, one_mul, one_div, inv_mul_cancel₀ (ne_of_gt huq)]
    linarith
  have hy0 : 0 ≤ ((n % u : Nat) : ℚ) / (u : ℚ) := by positivity
  have hfrac0 : 0 ≤ float64 (((n % u : Nat) : ℚ) / (u : ℚ)) := float64_nonneg _ hy0
  have hfrac1 : float64 (((n % u : Nat) : ℚ) / (u : ℚ))
      ≤ ((n % u : Nat) : ℚ) / (u : ℚ) + (2 : ℚ) ^ ((0 : Int) - 54) := by
    rcases eq_or_lt_of_le hy0 with h0 | hpos
    · rw [← h0]
      have : float64 0 = 0 := by simp [float64]
      rw [this]
      positivity
    · apply float64_le_add _ 0 hpos _ (by norm_num)
      have : (0 : ℚ) < 1 / (u : ℚ) := by positivity
      rw [zpow_zero]
      linarith
  have hgpos : (0 : ℚ) < (2 : ℚ) ^ (k - 54) := by positivity
  have hx0 : ((n / u : Nat) : ℚ)
      ≤ ((n / u : Nat) : ℚ) + float64 (((n % u : Nat) : ℚ) / (u : ℚ)) := by linarith
  have hxk : ((n / u : Nat) : ℚ) + float64 (((n % u : Nat) : ℚ) / (u : ℚ)) < (2 : ℚ) ^ k := by
    linarith
  have hlo : ((n / u : Nat) : ℚ)
      ≤ float64 (((n / u : Nat) : ℚ) + float64 (((n % u : Nat) : ℚ) / (u : ℚ))) :=
    le_float64 _ _ hx0 (lt_of_lt_of_le hxk hk53q)
  have hhi : float64 (((n / u : Nat) : ℚ) + float64 (((n % u : Nat) : ℚ) / (u : ℚ)))
      < ((n / u : Nat) : ℚ) + 1 := by
    have hxnn : (0 : ℚ) ≤ ((n / u : Nat) : ℚ) + float64 (((n % u : Nat) : ℚ) / (u : ℚ)) := by
      positivity
    rcases eq_or_lt_of_le hxnn with h0 | hpos
    · rw [← h0]
      have : float64 0 = 0 := by simp [float64]
      rw [this]
      positivity
    · have := float64_le_add _ k hpos hxk (by omega)
      linarith
  have hval : unitsFloat64 (u : Int) (n : Int)
      = float64 (((n / u : Nat) : ℚ) + float64 (((n % u : Nat) : ℚ) / (u : ℚ))) := by
    simp only [unitsFloat64, hd, hm, Int.cast_natCast, hfw, hfr]
  rw [hval, truncInt, if_pos (le_trans (by positivity) hlo)]
  rw [Int.floor_eq_iff]
  constructor
  · exact_mod_cast hlo
  · exact_mod_cast hhi

/-! ## The duration fields -/

/-- The four fields of a non-negative duration of `n` nanoseconds, shorter than
4096 hours. -/
theorem durationFields_natCast (n : Nat) (hn : n < 14745600000000000) :
    durationFields (n : Int)
      = (((n / 3600000000000 / 24 : Nat) : Int), ((n / 3600000000000 % 24 : Nat) : Int),
         ((n / 60000000000 % 60 : Nat) : Int), ((n / 1000000000 % 60 : Nat) : Int)) := by
  have hh : truncInt (HoursFloat64 (n : Int)) = ((n / 3600000000000 : Nat) : Int) := by
    have hw : n / 3600000000000 + 1 ≤ 4096 := by omega
    have hwq : ((n / 3600000000000 : Nat) : ℚ) + 1 ≤ (2 : ℚ) ^ (12 : Int) := by
      have : ((n / 3600000000000 + 1 : Nat) : ℚ) ≤ ((4096 : Nat) : ℚ) := by exact_mod_cast hw
      push_cast at this
      norm_num
      linarith
    exact truncInt_unitsFloat64 3600000000000 n 12 (by norm_num) (by norm_num) (by norm_num)
      (by norm_num) hwq (by norm_num)
  have hm : truncInt (MinutesFloat64 (n : Int)) = ((n / 60000000000 : Nat) : Int) := by
    have hw : n / 60000000000 + 1 ≤ 262144 := by omega
    have hwq : ((n / 60000000000 : Nat) : ℚ) + 1 ≤ (2 : ℚ) ^ (18 : Int) := by
      have : ((n / 60000000000 + 1 : Nat) : ℚ) ≤ ((262144 : Nat) : ℚ) := by exact_mod_cast hw
      push_cast at this
      norm_num
      linarith
    exact truncInt_unitsFloat64 60000000000 n 18 (by norm_num) (by norm_num) (by norm_num)
      (by norm_num) hwq (by norm_num)
  have hs : truncInt (SecondsFloat64 (n : Int)) = ((n / 1000000000 : Nat) : Int) := by
    have hw : n / 1000000000 + 1 ≤ 16777216 := by omega
    have hwq : ((n / 1000000000 : Nat) : ℚ) + 1 ≤ (2 : ℚ) ^ (24 : Int) := by
      have : ((n / 1000000000 + 1 : Nat) : ℚ) ≤ ((16777216 : Nat) : ℚ) := by exact_mod_cast hw
      push_cast at this
      norm_num
      linarith
    exact truncInt_unitsFloat64 1000000000 n 24 (by norm_num) (by norm_num) (by norm_num)
      (by norm_num) hwq (by norm_num)
  simp only [durationFields, hh, hm, hs]
  rfl


/-- The value of `float64` from the binade and the rounded significand. -/
theorem float64_eq (x : ℚ) (e : Int) (n : Nat) (h1 : (2 : ℚ) ^ e ≤ x)
    (h2 : x < (2 : ℚ) ^ (e + 1)) (he : -1022 ≤ e)
    (hnear : |x / (2 : ℚ) ^ (e - 52) - (n : ℚ)| < 1 / 2) :
    float64 x = (n : ℚ) * (2 : ℚ) ^ (e - 52) := by
  have hx : 0 < x := lt_of_lt_of_le (by positivity) h1
  rw [float64_of_binade x e h1 h2 he, roundHalfEven_eq_of_near _ n (by positivity) hnear]

/-- The evaluation of `int(float64(whole) + float64(rest)/unit)` from the two
roundings. -/
theorem truncInt_unitsFloat64_eval (u d : Int) (w r : Nat) (c s : ℚ) (t : Int)
    (hd : Int.tdiv d u = (w : Int)) (hm : Int.tmod d u = (r : Int))
    (hw : w < 2 ^ 53) (hr : r < 2 ^ 53)
    (hc : float64 ((r : ℚ) / (u : ℚ)) = c) (hs : float64 ((w : ℚ) + c) = s)
    (ht : truncInt s = t) : truncInt (unitsFloat64 u d) = t := by
  simp only [unitsFloat64, hd, hm, Int.cast_natCast, float64_natCast w hw,
    float64_natCast r hr, hc, hs, ht]

theorem truncInt_intCast (z : Int) : truncInt (z : ℚ) = z := by
  unfold truncInt
  split_ifs <;> simp

theorem durationFields_late :
    durationFields 14749199999999999 = (170, 17, 59, 59) := by
  have hh : truncInt (HoursFloat64 14749199999999999) = 4097 := by
    apply truncInt_unitsFloat64_eval 3600000000000 14749199999999999 4096 3599999999999
      (9007199254738490 / 9007199254740992) 4097 4097 (by decide) (by decide)
      (by norm_num) (by norm_num)
    · have h := float64_eq ((3599999999999 : Nat) / ((3600000000000 : Int) : ℚ)) (-1)
        9007199254738490 (by norm_num) (by norm_num) (by norm_num)
        (by rw [abs_lt]; constructor <;> norm_num)
      rw [h]
      norm_num
    · have h := float64_eq (((4096 : Nat) : ℚ) + 9007199254738490 / 9007199254740992) 12
        4504699138998272 (by norm_num) (by norm_num) (by norm_num)
        (by rw [abs_lt]; constructor <;> norm_num)
      rw [h]
      norm_num
    · exact truncInt_intCast 4097
  have hm : truncInt (MinutesFloat64 14749199999999999) = 245819 := by
    apply truncInt_unitsFloat64_eval 60000000000 14749199999999999 245819 59999999999
      (9007199254590872 / 9007199254740992) (8446310885621759 / 34359738368) 245819
      (by decide) (by decide) (by norm_num) (by norm_num)
    · have h := float64_eq ((59999999999 : Nat) / ((60000000000 : Int) : ℚ)) (-1)
        9007199254590872 (by norm_num) (by norm_num) (by norm_num)
        (by rw [abs_lt]; constructor <;> norm_num)
      rw [h]
      norm_num
    · have h := float64_eq (((245819 : Nat) : ℚ) + 9007199254590872 / 9007199254740992) 17
        8446310885621759 (by norm_num) (by norm_num) (by norm_num)
        (by rw [abs_lt]; constructor <;> norm_num)
      rw [h]
      norm_num
    · unfold truncInt
      rw [if_pos (by norm_num), Int.floor_eq_iff]
      constructor <;> norm_num
  have hs : truncInt (SecondsFloat64 14749199999999999) = 14749199 := by
    apply truncInt_unitsFloat64_eval 1000000000 14749199999999999 14749199 999999999
      (9007199245733793 / 9007199254740992) (7918416455270399 / 536870912) 14749199
      (by decide) (by decide) (by norm_num) (by norm_num)
    · have h := float64_eq ((999999999 : Nat) / ((1000000000 : Int) : ℚ)) (-1)
        9007199245733793 (by norm_num) (by norm_num) (by norm_num)
        (by rw [abs_lt]; constructor <;> norm_num)
      rw [h]
      norm_num
    · have h := float64_eq (((14749199 : Nat) : ℚ) + 9007199245733793 / 9007199254740992) 23
        7918416455270399 (by norm_num) (by norm_num) (by norm_num)
        (by rw [abs_lt]; constructor <;> norm_num)
      rw [h]
      norm_num
    · unfold truncInt
      rw [if_pos (by norm_num), Int.floor_eq_iff]
      constructor <;> norm_num
  simp only [durationFields, hh, hm, hs]
  decide

/-- The four fields of a non-negative duration of `s` whole seconds and `ns`
further nanoseconds, shorter than 4096 hours. -/
theorem durationFields_seconds (s ns : Nat) (hns : ns < 1000000000) (hs : s < 14745600) :
    durationFields ((s * 1000000000 + ns : Nat) : Int)
      = (((s / 86400 : Nat) : Int), ((s / 3600 % 24 : Nat) : Int),
         ((s / 60 % 60 : Nat) : Int), ((s % 60 : Nat) : Int)) := by
  have e1 : (s * 1000000000 + ns) / 3600000000000 / 24 = s / 86400 := by omega
  have e2 : (s * 1000000000 + ns) / 3600000000000 % 24 = s / 3600 % 24 := by omega
  have e3 : (s * 1000000000 + ns) / 60000000000 % 60 = s / 60 % 60 := by omega
  have e4 : (s * 1000000000 + ns) / 1000000000 % 60 = s % 60 := by omega
  have hf := durationFields_natCast (s * 1000000000 + ns) (by omega)
  rw [e1, e2, e3, e4] at hf
  exact hf

theorem durationFields_text (s ns : Nat) (hns : ns < 1000000000) (hs : s < 14745600) :
    durationText ((s * 1000000000 + ns : Nat) : Int)
      = fmtSpaceInt 2 ((s / 86400 : Nat) : Int) ++ [58]
          ++ fmtZeroInt 2 ((s / 3600 % 24 : Nat) : Int) ++ [58]
          ++ fmtZeroInt 2 ((s / 60 % 60 : Nat) : Int) ++ [58]
          ++ fmtZeroInt 2 ((s % 60 : Nat) : Int) := by
  simp only [durationText, durationFields_seconds s ns hns hs]

/-- C14, as stated, fails: at an elapsed duration of 14749199 whole seconds and
999999999 nanoseconds (4096 hours, 59 minutes, 59.999999999 seconds) the float64
sum in `since.Hours()` rounds up to 4097, so the rendered fields are
170, 17, 59, 59 where the claim has 170, 16, 59, 59, and they do not add up to
the 14749199 seconds. -/
theorem durationFields_late_hour :
    durationFields ((14749199 * 1000000000 + 999999999 : Nat) : Int) = (170, 17, 59, 59)
      ∧ (((14749199 / 86400 : Nat) : Int), ((14749199 / 3600 % 24 : Nat) : Int),
          ((14749199 / 60 % 60 : Nat) : Int), ((14749199 % 60 : Nat) : Int))
          = (170, 16, 59, 59)
      ∧ ¬ durationFields ((14749199 * 1000000000 + 999999999 : Nat) : Int)
          = (((14749199 / 86400 : Nat) : Int), ((14749199 / 3600 % 24 : Nat) : Int),
             ((14749199 / 60 % 60 : Nat) : Int), ((14749199 % 60 : Nat) : Int))
      ∧ ¬ 170 * 86400 + 17 * 3600 + 59 * 60 + 59 = 14749199 := by
  have h : durationFields ((14749199 * 1000000000 + 999999999 : Nat) : Int)
      = (170, 17, 59, 59) := durationFields_late
  refine ⟨h, by decide, ?_, by decide⟩
  rw [h]
  decide

/-- C14, amended: for a non-negative elapsed duration shorter than 4096 hours,
of `s` whole seconds (and `ns` further nanoseconds, fewer than a second), the
four rendered fields are `s / 86400`, `(s / 3600) mod 24`, `(s / 60) mod 60` and
`s mod 60`; hours are below 24, minutes and seconds below 60, and the fields
add up to `s`. -/
theorem durationFields_whole_seconds (s ns : Nat) (hns : ns < 1000000000)
    (hs : s < 14745600) :
    durationFields ((s * 1000000000 + ns : Nat) : Int)
        = (((s / 86400 : Nat) : Int), ((s / 3600 % 24 : Nat) : Int),
           ((s / 60 % 60 : Nat) : Int), ((s % 60 : Nat) : Int))
      ∧ durationText ((s * 1000000000 + ns : Nat) : Int)
        = fmtSpaceInt 2 ((s / 86400 : Nat) : Int) ++ [58]
            ++ fmtZeroInt 2 ((s / 3600 % 24 : Nat) : Int) ++ [58]
            ++ fmtZeroInt 2 ((s / 60 % 60 : Nat) : Int) ++ [58]
            ++ fmtZeroInt 2 ((s % 60 : Nat) : Int)
      ∧ s / 3600 % 24 < 24 ∧ s / 60 % 60 < 60 ∧ s % 60 < 60
      ∧ s / 86400 * 86400 + s / 3600 % 24 * 3600 + s / 60 % 60 * 60 + s % 60 = s := by
  exact ⟨durationFields_seconds s ns hns hs, durationFields_text s ns hns hs,
    by omega, by omega, by omega, by omega⟩

theorem durationFields_whole_seconds_witness :
    durationFields ((93784 * 1000000000 + 5 : Nat) : Int)
        = (((93784 / 86400 : Nat) : Int), ((93784 / 3600 % 24 : Nat) : Int),
           ((93784 / 60 % 60 : Nat) : Int), ((93784 % 60 : Nat) : Int)) :=
  (durationFields_whole_seconds 93784 5 (by decide) (by decide)).1

/-! ## The formatted message -/

theorem padLeft_length (wid : Nat) (s : GoString) :
    (padLeft wid s).length = max wid s.length := by
  simp only [padLeft, List.length_append, List.length_replicate]
  omega

theorem padLeft_of_le (wid : Nat) (s : GoString) (h : wid ≤ s.length) : padLeft wid s = s := by
  have h0 : wid - s.length = 0 := by omega
  simp [padLeft, h0]

theorem toDigitsCore_length_le (fuel n : Nat) (ds : List Char) :
    ds.length ≤ (Nat.toDigitsCore 10 fuel n ds).length := by
  induction fuel generalizing n ds with
  | zero => simp [Nat.toDigitsCore]
  | succ fuel ih =>
    simp only [Nat.toDigitsCore]
    split_ifs
    · simp
    · exact le_trans (by simp) (ih _ _)

theorem decimal_length_pos (n : Nat) : 1 ≤ (decimal n).length := by
  simp only [decimal, List.length_map, Nat.toDigits, Nat.toDigitsCore]
  split_ifs
  · simp
  · exact le_trans (by simp) (toDigitsCore_length_le _ _ _)

theorem decimal_length_two_digits : ∀ m, m < 100 →
    (decimal m).length = if m < 10 then 1 else 2 := by
  decide

theorem fmtSpaceInt_length : ∀ d : Nat, d < 100 →
    (fmtSpaceInt 2 (d : Int)).length = if d < 10 then 2 else 3 := by
  decide

theorem fmtZeroInt_length : ∀ v : Nat, v < 60 → (fmtZeroInt 2 (v : Int)).length = 2 := by
  decide

/-- The text of `% 3.2f`: the width 3 never pads, the text is the sign
position, the integer digits, a point and two decimals of the rounded value. -/
theorem fmtSpaceFloat2_text (x : ℚ) :
    fmtSpaceFloat2 3 x
      = (if x < 0 then [45] else [32]) ++ decimal (roundHalfEven (|x| * 100) / 100)
          ++ [46, 48 + roundHalfEven (|x| * 100) % 100 / 10, 48 + roundHalfEven (|x| * 100) % 10] := by
  unfold fmtSpaceFloat2
  simp only
  apply padLeft_of_le
  have := decimal_length_pos (roundHalfEven (|x| * 100) / 100)
  split_ifs <;> simp

/-- C13: for every batch the message starts with the temperature
`temp * 9 / 5 + 32` printed with two decimal places (the sign position, the
integer digits, a point and the two decimals of the value rounded to the
nearest hundredth), followed by the degree byte `0xDF` and `F`; for a
temperature of 20 the message starts with a space, `68.00` and the degree byte. -/
theorem rendered_temperature (batch : Batch) (clock : Int) :
    ftemp batch = batch.temp * 9 / 5 + 32
      ∧ (∃ n : Nat, |(|ftemp batch| * 100 - (n : ℚ))| ≤ 1 / 2
          ∧ message batch clock
            = (if ftemp batch < 0 then [45] else [32]) ++ decimal (n / 100)
                ++ [46, 48 + n % 100 / 10, 48 + n % 10]
                ++ [0xDF] ++ [70] ++ padLeft 12 (durationText (clock - batch.start)))
      ∧ (batch.temp = 20 →
          message batch clock
            = [32] ++ ascii "68.00" ++ [0xDF] ++ [70]
                ++ padLeft 12 (durationText (clock - batch.start))) := by
  refine ⟨rfl, ⟨roundHalfEven (|ftemp batch| * 100), ?_, ?_⟩, ?_⟩
  · exact roundHalfEven_near _ (by positivity)
  · simp only [message, fmtSpaceFloat2_text]
  · intro h20
    have hF : ftemp batch = 68 := by
      rw [ftemp, h20]
      norm_num
    have hn : roundHalfEven (|(68 : ℚ)| * 100) = 6800 := by
      have e : |(68 : ℚ)| * 100 = ((6800 : Nat) : ℚ) := by norm_num
      rw [e, roundHalfEven_natCast]
    have hpos : ¬ (68 : ℚ) < 0 := by norm_num
    have e : ([32] : GoString) ++ decimal (6800 / 100)
        ++ [46, 48 + 6800 % 100 / 10, 48 + 6800 % 10] = [32] ++ ascii "68.00" := by
      decide
    simp only [message, fmtSpaceFloat2_text, hF, hn, hpos, if_false]
    rw [e]

theorem message_length (batch : Batch) (clock : Int) :
    (message batch clock).length
      = (decimal (roundHalfEven (|ftemp batch| * 100) / 100)).length + 6
          + max 12 (durationText (clock - batch.start)).length := by
  simp only [message, fmtSpaceFloat2_text, List.length_append, padLeft_length]
  split_ifs <;> simp <;> omega

theorem durationText_length (s ns : Nat) (hns : ns < 1000000000) (hdays : s < 8640000) :
    (durationText ((s * 1000000000 + ns : Nat) : Int)).length
      = if s / 86400 < 10 then 11 else 12 := by
  have hd : s / 86400 < 100 := by omega
  have hh : s / 3600 % 24 < 60 := by omega
  have hm : s / 60 % 60 < 60 := by omega
  have hs : s % 60 < 60 := by omega
  simp only [durationText, durationFields_seconds s ns hns (by omega), List.length_append,
    fmtSpaceInt_length _ hd, fmtZeroInt_length _ hh, fmtZeroInt_length _ hm,
    fmtZeroInt_length _ hs, List.length_singleton]
  split_ifs <;> rfl

/-- C15, as stated, fails: a batch at 40 degrees Celsius (104 degrees
Fahrenheit) has a message of 21 bytes, and an elapsed time of 100 days has a
duration part of 13 bytes. -/
theorem message_width_not_fixed :
    (message (updateBatch (createBatch ⟨⟨ascii "28-000005e2fdc3", 40⟩, 0, 0, 0⟩)
        ⟨⟨ascii "28-000005e2fdc3", 40⟩, 0, 0, 0⟩) 0).length = 21
      ∧ (padLeft 12 (durationText ((8640000 * 1000000000 + 0 : Nat) : Int))).length = 13 := by
  constructor
  · have hF : ftemp (updateBatch (createBatch ⟨⟨ascii "28-000005e2fdc3", 40⟩, 0, 0, 0⟩)
        ⟨⟨ascii "28-000005e2fdc3", 40⟩, 0, 0, 0⟩) = 104 := by
      simp only [ftemp, updateBatch]
      norm_num
    have hn : roundHalfEven (|(104 : ℚ)| * 100) = 10400 := by
      have e : |(104 : ℚ)| * 100 = ((10400 : Nat) : ℚ) := by norm_num
      rw [e, roundHalfEven_natCast]
    have hs : (updateBatch (createBatch ⟨⟨ascii "28-000005e2fdc3", 40⟩, 0, 0, 0⟩)
        ⟨⟨ascii "28-000005e2fdc3", 40⟩, 0, 0, 0⟩).start = 0 := rfl
    have hd : (durationText ((0 : Int) - 0)).length = 11 :=
      durationText_length 0 0 (by decide) (by decide)
    rw [message_length, hF, hn, hs, hd]
    decide
  · rw [padLeft_length, durationFields_text 8640000 0 (by decide) (by decide)]
    decide

/-- C15, amended: for every batch whose Fahrenheit temperature has a magnitude
of at least 10 and below 99.995 (two integer digits when printed), and every
elapsed duration that is non-negative and shorter than 100 days, the duration
part, justified by `%12s`, has exactly 12 bytes and the message has 20 bytes. -/
theorem message_fixed_width (batch : Batch) (clock : Int) (s ns : Nat)
    (hns : ns < 1000000000)
    (hsince : clock - batch.start = ((s * 1000000000 + ns : Nat) : Int))
    (hdays : s < 8640000)
    (hlo : 10 ≤ |ftemp batch|) (hhi : |ftemp batch| < 19999 / 200) :
    (padLeft 12 (durationText (clock - batch.start))).length = 12
      ∧ (message batch clock).length = 20 := by
  have hdur : max 12 (durationText (clock - batch.start)).length = 12 := by
    rw [hsince, durationText_length s ns hns hdays]
    split_ifs <;> rfl
  have hnear := roundHalfEven_near (|ftemp batch| * 100) (by positivity)
  rw [abs_le] at hnear
  obtain ⟨hn1, hn2⟩ := hnear
  have hge : 1000 ≤ roundHalfEven (|ftemp batch| * 100) := by
    have : (999 : ℚ) < (roundHalfEven (|ftemp batch| * 100) : ℚ) := by linarith
    have h2 : 999 < roundHalfEven (|ftemp batch| * 100) := by exact_mod_cast this
    omega
  have hlt : roundHalfEven (|ftemp batch| * 100) < 10000 := by
    have : (roundHalfEven (|ftemp batch| * 100) : ℚ) < 10000 := by linarith
    exact_mod_cast this
  have hdec : (decimal (roundHalfEven (|ftemp batch| * 100) / 100)).length = 2 := by
    rw [decimal_length_two_digits _ (by omega)]
    rw [if_neg (by omega)]
  refine ⟨by rw [padLeft_length, hdur], ?_⟩
  rw [message_length, hdec, hdur]

theorem message_fixed_width_witness :
    (padLeft 12 (durationText ((93784000000005 : Int)
        - (updateBatch (createBatch ⟨⟨ascii "28-000005e2fdc3", 20⟩, 0, 0, 0⟩)
            ⟨⟨ascii "28-000005e2fdc3", 20⟩, 0, 0, 0⟩).start))).length = 12
      ∧ (message (updateBatch (createBatch ⟨⟨ascii "28-000005e2fdc3", 20⟩, 0, 0, 0⟩)
            ⟨⟨ascii "28-000005e2fdc3", 20⟩, 0, 0, 0⟩) 93784000000005).length = 20 :=
  message_fixed_width
    (updateBatch (createBatch ⟨⟨ascii "28-000005e2fdc3", 20⟩, 0, 0, 0⟩)
      ⟨⟨ascii "28-000005e2fdc3", 20⟩, 0, 0, 0⟩)
    93784000000005 93784 5 (by decide) (by decide) (by decide)
    (by simp only [ftemp, updateBatch]; norm_num)
    (by simp only [ftemp, updateBatch]; norm_num)

/-! ## The range of the emitted temperature -/

theorem length_eq_five {α : Type} (xs : List α) (h : xs.length = 5) :
    ∃ a b c d e, xs = [a, b, c, d, e] := by
  match xs, h with
  | [a, b, c, d, e], _ => exact ⟨a, b, c, d, e, rfl⟩

/-- The integers `strconv.Atoi` reads from a string of 5 bytes. -/
theorem Atoi_five_range (s : GoString) (hlen : s.length = 5) (n : Int)
    (h : Atoi s = some n) : -9999 ≤ n ∧ n ≤ 99999 := by
  obtain ⟨a, b, c, d, e, rfl⟩ := length_eq_five s hlen
  by_cases hsign : a = 45 ∨ a = 43
  · simp only [Atoi, hsign, if_true, List.all_cons, List.all_nil, isDigit, digitsValue,
      List.foldl_cons, List.foldl_nil] at h
    simp only [reduceCtorEq, if_false, Bool.and_true, Bool.and_eq_true, decide_eq_true_eq,
      Nat.zero_mul, Nat.zero_add] at h
    split_ifs at h
    all_goals
      have hn := (Option.some.inj h).symm
      subst hn
      push_cast
      omega
  · simp only [Atoi, hsign, if_false, List.all_cons, List.all_nil, isDigit, digitsValue,
      List.foldl_cons, List.foldl_nil] at h
    simp only [reduceCtorEq, if_false, Bool.and_true, Bool.and_eq_true, decide_eq_true_eq,
      Nat.zero_mul, Nat.zero_add] at h
    split_ifs at h
    all_goals
      have hn := (Option.some.inj h).symm
      subst hn
      push_cast
      omega

/-- Every reading `getTemp` sends carries the integer that `Atoi` read from the
last 5 bytes of the second line, over 1000. -/
theorem getTemp_emitted (readFile : GoString → Option GoString) (path : GoString)
    (r : tempReading) (hr : r ∈ emitted (getTemp readFile path)) :
    ∃ last5 n, last5.length = 5 ∧ Atoi last5 = some n ∧ r.temp = (n : ℚ) / 1000 := by
  cases hread : readFile path with
  | none => simp [getTemp, hread, emitted] at hr
  | some dat =>
    by_cases hlen : (Split 10 dat).length ≠ 3
    · simp [getTemp, hread, hlen, emitted] at hr
    have hlen3 : (Split 10 dat).length = 3 := by
      by_contra hne
      exact hlen hne
    obtain ⟨l0, l1, l2, hlines⟩ := length_eq_three _ hlen3
    have hi0 : index [l0, l1, l2] 0 = .ok l0 := rfl
    by_cases hyes : HasSuffix l0 YES = true
    swap
    · simp [getTemp, hread, hlines, hi0, Except.bind, hyes, emitted] at hr
    by_cases hplen : (Split 47 path).length < 6
    · simp [getTemp, hread, hlines, hi0, Except.bind, hyes, hplen, emitted] at hr
    obtain ⟨seg, hseg⟩ := getElem?_five_of_length _ hplen
    have hi5 : index (Split 47 path) 5 = .ok seg := index_eq_ok _ _ _ hseg
    by_cases hseglen : seg.length < 5
    · simp [getTemp, hread, hlines, hi0, hi5, Except.bind, hyes, hplen, hseglen, emitted] at hr
    rw [getTemp_checks_passed readFile path dat seg l0 l1 l2 hread hlines hyes hseg hseglen] at hr
    by_cases hshort : l1.length < 5
    · have hsl : sliceFrom l1 ((l1.length : Int) - 5) = .error .sliceBoundsOutOfRange :=
        sliceFrom_short l1 5 hshort
      rw [hsl] at hr
      simp [Except.bind, emitted] at hr
    · have hsplit : l1 = l1.take (l1.length - 5) ++ l1.drop (l1.length - 5) :=
        (List.take_append_drop _ _).symm
      have hdl : (l1.drop (l1.length - 5)).length = 5 := by
        rw [List.length_drop]
        omega
      have hsl0 := sliceFrom_last (l1.take (l1.length - 5)) (l1.drop (l1.length - 5)) 5 hdl
      rw [← hsplit] at hsl0
      have hsl : sliceFrom l1 ((l1.length : Int) - 5) = .ok (l1.drop (l1.length - 5)) := hsl0
      rw [hsl] at hr
      cases hat : Atoi (l1.drop (l1.length - 5)) with
      | none => simp [Except.bind, hat, emitted] at hr
      | some n =>
        simp only [Except.bind, hat, emitted, List.mem_singleton] at hr
        exact ⟨_, n, hdl, hat, by rw [hr]⟩

/-- C17: every reading `getTemp` sends has a temperature `n / 1000` for an
integer `n` from -9999 to 99999, so between -9.999 and 99.999, because only the
last 5 bytes of the second line are parsed; a valid sample whose second line
ends in `t=100000` yields the temperature 0, not 100, and one ending in
`t=-12345` yields 12.345, not -12.345. -/
theorem emitted_temperature_range :
    (∀ (readFile : GoString → Option GoString) (path : GoString) (r : tempReading),
        r ∈ emitted (getTemp readFile path) →
          ∃ n : Int, -9999 ≤ n ∧ n ≤ 99999 ∧ r.temp = (n : ℚ) / 1000
            ∧ -9999 / 1000 ≤ r.temp ∧ r.temp ≤ 99999 / 1000)
      ∧ getTemp (fun _ => some (ascii "00 00 4b 46 7f ff 0c 10 00 : crc=00 YES\n00 00 4b 46 7f ff 0c 10 00 t=100000\n"))
          (ascii "/sys/bus/w1/devices/28-000005e2fdc3/w1_slave")
          = .ok [{ busid := ascii "28-000005e2fdc3", temp := 0 }]
      ∧ (0 : ℚ) ≠ 100000 / 1000
      ∧ getTemp (fun _ => some (ascii "00 00 4b 46 7f ff 0c 10 00 : crc=00 YES\n00 00 4b 46 7f ff 0c 10 00 t=-12345\n"))
          (ascii "/sys/bus/w1/devices/28-000005e2fdc3/w1_slave")
          = .ok [{ busid := ascii "28-000005e2fdc3", temp := 12345 / 1000 }]
      ∧ (12345 / 1000 : ℚ) ≠ -12345 / 1000 := by
  refine ⟨?_, ?_, by norm_num, ?_, by norm_num⟩
  · intro readFile path r hr
    obtain ⟨last5, n, hlen, hat, htemp⟩ := getTemp_emitted readFile path r hr
    obtain ⟨h1, h2⟩ := Atoi_five_range last5 hlen n hat
    have q1 : ((-9999 : Int) : ℚ) ≤ (n : ℚ) := by exact_mod_cast h1
    have q2 : (n : ℚ) ≤ ((99999 : Int) : ℚ) := by exact_mod_cast h2
    refine ⟨n, h1, h2, htemp, ?_, ?_⟩
    · rw [htemp]
      push_cast at q1
      linarith
    · rw [htemp]
      push_cast at q2
      linarith
  · rw [getTemp_checks_passed
      (fun _ => some (ascii "00 00 4b 46 7f ff 0c 10 00 : crc=00 YES\n00 00 4b 46 7f ff 0c 10 00 t=100000\n"))
      (ascii "/sys/bus/w1/devices/28-000005e2fdc3/w1_slave")
      (ascii "00 00 4b 46 7f ff 0c 10 00 : crc=00 YES\n00 00 4b 46 7f ff 0c 10 00 t=100000\n")
      (ascii "28-000005e2fdc3")
      (ascii "00 00 4b 46 7f ff 0c 10 00 : crc=00 YES")
      (ascii "00 00 4b 46 7f ff 0c 10 00 t=100000") [] rfl (by decide) (by decide) (by decide)
      (by decide)]
    have hs : sliceFrom (ascii "00 00 4b 46 7f ff 0c 10 00 t=100000")
        (((ascii "00 00 4b 46 7f ff 0c 10 00 t=100000").length : Int) - 5)
        = .ok [48 + 0, 48 + 0, 48 + 0, 48 + 0, 48 + 0] := by rfl
    rw [hs]
    simp only [Except.bind, Atoi_five_digits 0 0 0 0 0 (by decide) (by decide) (by decide)
      (by decide) (by decide)]
    norm_num
  · rw [getTemp_checks_passed
      (fun _ => some (ascii "00 00 4b 46 7f ff 0c 10 00 : crc=00 YES\n00 00 4b 46 7f ff 0c 10 00 t=-12345\n"))
      (ascii "/sys/bus/w1/devices/28-000005e2fdc3/w1_slave")
      (ascii "00 00 4b 46 7f ff 0c 10 00 : crc=00 YES\n00 00 4b 46 7f ff 0c 10 00 t=-12345\n")
      (ascii "28-000005e2fdc3")
      (ascii "00 00 4b 46 7f ff 0c 10 00 : crc=00 YES")
      (ascii "00 00 4b 46 7f ff 0c 10 00 t=-12345") [] rfl (by decide) (by decide) (by decide)
      (by decide)]
    have hs : sliceFrom (ascii "00 00 4b 46 7f ff 0c 10 00 t=-12345")
        (((ascii "00 00 4b 46 7f ff 0c 10 00 t=-12345").length : Int) - 5)
        = .ok [48 + 1, 48 + 2, 48 + 3, 48 + 4, 48 + 5] := by rfl
    rw [hs]
    simp only [Except.bind, Atoi_five_digits 1 2 3 4 5 (by decide) (by decide) (by decide)
      (by decide) (by decide)]
    norm_num

theorem emitted_temperature_range_witness :
    ∃ n : Int, -9999 ≤ n ∧ n ≤ 99999
      ∧ (tempReading.mk (ascii "28-000005e2fdc3") (23125 / 1000)).temp = (n : ℚ) / 1000
      ∧ -9999 / 1000 ≤ (tempReading.mk (ascii "28-000005e2fdc3") (23125 / 1000)).temp
      ∧ (tempReading.mk (ascii "28-000005e2fdc3") (23125 / 1000)).temp ≤ 99999 / 1000 :=
  emitted_temperature_range.1
    (fun _ => some (ascii "72 01 4b 46 7f ff 0e 10 57 : crc=57 YES\n72 01 4b 46 7f ff 0e 10 57 t=23125\n"))
    (ascii "/sys/bus/w1/devices/28-000005e2fdc3/w1_slave")
    (tempReading.mk (ascii "28-000005e2fdc3") (23125 / 1000))
    (by
      have h : getTemp
          (fun _ => some (ascii "72 01 4b 46 7f ff 0e 10 57 : crc=57 YES\n72 01 4b 46 7f ff 0e 10 57 t=23125\n"))
          (ascii "/sys/bus/w1/devices/28-000005e2fdc3/w1_slave")
          = .ok [tempReading.mk (ascii "28-000005e2fdc3") (23125 / 1000)] := by
        rfl
      rw [h]
      simp [emitted])

/-! ## The nibble encoding -/

set_option maxRecDepth 100000 in
theorem nibble_bits : ∀ b, b < 256 → ∀ mode, mode < 2 →
    (((b &&& 0xF0) ||| 0x08 ||| mode) &&& 0xF0)
        ||| ((((b &&& 0x0F) <<< 4) ||| 0x08 ||| mode) >>> 4) = b
      ∧ (0x08 ||| mode) &&& 0x01 = mode := by
  decide

theorem busBytes_send (b mode : Nat) :
    busBytes (send b mode)
      = [ (b &&& 0xF0) ||| 0x08 ||| mode,
          (b &&& 0xF0) ||| 0x04 ||| 0x08 ||| mode,
          ((b &&& 0x0F) <<< 4) ||| 0x08 ||| mode,
          ((b &&& 0x0F) <<< 4) ||| 0x04 ||| 0x08 ||| mode,
          0x08 ||| mode ] := by
  rw [send_trace]
  rfl

/-- C18: the nibble encoding of `send` is lossless: for every byte `b` and
mode 0 or 1 the five bytes written `w1 .. w5` satisfy
`(w1 & 0xF0) | (w3 >> 4) = b` and `w5 & 0x01 = mode`; hence two sends that write
the same five bytes were given the same byte and the same mode. -/
theorem send_lossless (b mode : Nat) (hb : b < 256) (hm : mode < 2) :
    (∃ w1 w2 w3 w4 w5, busBytes (send b mode) = [w1, w2, w3, w4, w5]
        ∧ (w1 &&& 0xF0) ||| (w3 >>> 4) = b ∧ w5 &&& 0x01 = mode)
      ∧ ∀ b2 mode2, b2 < 256 → mode2 < 2 →
          busBytes (send b mode) = busBytes (send b2 mode2) → b = b2 ∧ mode = mode2 := by
  obtain ⟨n1, n2⟩ := nibble_bits b hb mode hm
  refine ⟨⟨_, _, _, _, _, busBytes_send b mode, n1, n2⟩, ?_⟩
  intro b2 mode2 hb2 hm2 heq
  obtain ⟨m1, m2⟩ := nibble_bits b2 hb2 mode2 hm2
  rw [busBytes_send, busBytes_send] at heq
  simp only [List.cons.injEq, and_true] at heq
  obtain ⟨e1, _, e3, _, e5⟩ := heq
  constructor
  · rw [← n1, ← m1, e1, e3]
  · rw [← n2, ← m2, e5]

theorem send_lossless_witness :
    (∃ w1 w2 w3 w4 w5, busBytes (send 0x41 1) = [w1, w2, w3, w4, w5]
        ∧ (w1 &&& 0xF0) ||| (w3 >>> 4) = 0x41 ∧ w5 &&& 0x01 = 1)
      ∧ ∀ b2 mode2, b2 < 256 → mode2 < 2 →
          busBytes (send 0x41 1) = busBytes (send b2 mode2) → 0x41 = b2 ∧ 1 = mode2 :=
  send_lossless 0x41 1 (by decide) (by decide)

end Petgerms
